import Mathlib

set_option maxRecDepth 20000

/-!
Verification of the temporal file-matching engines of the vlab-ew4all
repository: the GOES matching engine (`files/downloader.py`, function
`download_GOES`) and the JPSS pairing resolver (`files/downloader_jpss.py`,
function `download_jpss_sdr`).  The download/listing I/O is out of scope;
the embedding models the pure selection logic over a supplied catalog of
object keys.
-/

namespace Vlab

/-! ## Calendar arithmetic (model of Python `datetime` instants)

A `datetime` is represented by its total number of seconds in the proleptic
Gregorian calendar, so that `timedelta` comparisons become `Nat.dist`
comparisons. -/

def isLeap (y : Nat) : Bool := (y % 4 == 0 && y % 100 != 0) || (y % 400 == 0)

def daysInYear (y : Nat) : Nat := if isLeap y then 366 else 365

/-- Days in the proleptic Gregorian calendar strictly before January 1 of
year `y` (matches `datetime.date(y,1,1).toordinal() - 1`). -/
def daysBeforeYear (y : Nat) : Nat :=
  365 * (y - 1) + (y - 1) / 4 + (y - 1) / 400 - (y - 1) / 100

def monthLen (leap : Bool) (m : Nat) : Nat :=
  [31, if leap then 29 else 28, 31, 30, 31, 30, 31, 31, 30, 31, 30, 31].getD (m - 1) 0

def daysBeforeMonth (leap : Bool) (m : Nat) : Nat :=
  ((List.range (m - 1)).map (fun i => monthLen leap (i + 1))).sum

/-- Day of year (1-based) of a calendar date. -/
def doyOf (y mo d : Nat) : Nat := daysBeforeMonth (isLeap y) mo + d

/-- Seconds since the epoch of year 1, given a year and a (possibly
overflowing) day-of-year, mirroring `date(y,1,1).toordinal() + doy - 1`. -/
def epochSecs (y doy h mi s : Nat) : Nat :=
  (daysBeforeYear y + (doy - 1)) * 86400 + h * 3600 + mi * 60 + s

/-! ## Character-list string utilities (models of Python `str` operations) -/

def digitB (c : Char) : Bool := '0' ≤ c && c ≤ '9'

def charVal (c : Char) : Nat := c.toNat - 48

/-- `int()` on a slice: succeeds on a nonempty all-digit string. -/
def natOfDigits? (cs : List Char) : Option Nat :=
  if cs ≠ [] ∧ cs.all digitB then some (cs.foldl (fun a c => a * 10 + charVal c) 0)
  else none

/-- Boolean prefix test on character lists: `isPrefixL p l` holds when `p`
is an initial segment of `l`. -/
def isPrefixL : List Char → List Char → Bool
  | [], _ => true
  | _ :: _, [] => false
  | c :: cs, d :: ds => c == d && isPrefixL cs ds

/-- Model of Python `str.startswith`. -/
def startsWithB (s pre : String) : Bool := isPrefixL pre.data s.data

/-- Model of Python `str.endswith`. -/
def endsWithB (s suf : String) : Bool := isPrefixL suf.data.reverse s.data.reverse

def findSubAux (sub : List Char) : List Char → Nat → Option Nat
  | [], i => if isPrefixL sub [] then some i else none
  | l@(_ :: cs), i => if isPrefixL sub l then some i else findSubAux sub cs (i + 1)

/-- Model of Python `str.find(sub, start)`: index of the first occurrence of
`sub` at or after `start`, or `none` (Python's `-1`). -/
def findSub (s sub : String) (start : Nat) : Option Nat :=
  (findSubAux sub.data (s.data.drop start) 0).map (· + start)

/-- Model of the Python slice `s[a:b]` (for `a ≤ b`). -/
def subSlice (s : String) (a b : Nat) : String :=
  String.mk ((s.data.drop a).take (b - a))

/-- Model of `key.split('/')[-1]`: the part after the last `/`. -/
def lastComponent (s : String) : String :=
  String.mk (s.data.foldl (fun acc c => if c == '/' then [] else acc ++ [c]) [])

/-- Model of `sub in s`. -/
def containsSub (s sub : String) : Bool := (findSub s sub 0).isSome

/-- `toString` of a natural, left-padded with zeros to width `w`
(Python's `f-string` `:0wd` on a nonnegative value). -/
def padNum (w n : Nat) : String :=
  String.mk (List.replicate (w - (toString n).data.length) '0') ++ toString n

/-! ## Model of `datetime.strptime(s, '%Y%j%H%M%S')`

For the 13-character strings produced by the engine this is a fixed-width
parse (4+3+2+2+2 is the only split the format admits): every field must be
decimal, the day-of-year must be 1..366 (`%j` rolls over past the end of
short years without error), the hour 0..23, the minute 0..59 and the second
0..59 (the `datetime` constructor rejects the leap seconds `%S` tolerates);
the resulting date must stay below year 10000.  Any other input raises
`ValueError`, modelled by `none`. -/

def sliceNat? (cs : List Char) (a b : Nat) : Option Nat := natOfDigits? ((cs.drop a).take (b - a))

def parse13 (s : String) : Option Nat :=
  if s.data.length = 13 then
    match sliceNat? s.data 0 4, sliceNat? s.data 4 7, sliceNat? s.data 7 9,
          sliceNat? s.data 9 11, sliceNat? s.data 11 13 with
    | some y, some doy, some h, some mi, some sec =>
        if 1 ≤ y ∧ 1 ≤ doy ∧ doy ≤ 366 ∧ h ≤ 23 ∧ mi ≤ 59 ∧ sec ≤ 59 ∧
           (y < 9999 ∨ doy ≤ 365) then
          some (epochSecs y doy h mi sec)
        else none
    | _, _, _, _, _ => none
  else none

/-- Model of the `datetime(y, mo, d, h, mi, s)` constructor: validates every
field and yields the instant, or raises (`none`). -/
def mkDatetime? (y mo d h mi s : Nat) : Option Nat :=
  if 1 ≤ y ∧ y ≤ 9999 ∧ 1 ≤ mo ∧ mo ≤ 12 ∧ 1 ≤ d ∧ d ≤ monthLen (isLeap y) mo ∧
     h ≤ 23 ∧ mi ≤ 59 ∧ s ≤ 59 then
    some (epochSecs y (doyOf y mo d) h mi s)
  else none

/-! ## GOES matching engine (`download_GOES`)

The request is modelled after the arguments of `download_GOES` once the
input timestamp has been parsed: `satNum` is `satellite[1:]`, `mode` and
`sector` are the resolved `scan_params`, and the `q*` fields are the parsed
components of the query timestamp (`qSec = 0` when no seconds were given).
The catalog is the list of object keys returned by the listing collaborator
(in listing order), and `band` is passed separately so that band-default
behaviour can be compared across band values. -/

structure GoesReq where
  product : String
  satNum : String
  mode : String
  sector : Option String
  hasSeconds : Bool
  qYear : Nat
  qMonth : Nat
  qDay : Nat
  qHour : Nat
  qMin : Nat
  qSec : Nat
deriving DecidableEq

/-- `is_mesoscale = product.endswith('M')`. -/
def isMesoscaleP (p : String) : Bool := endsWithB p "M"

/-- `is_conus = product.endswith('C') and not is_mesoscale`. -/
def isConusP (p : String) : Bool := endsWithB p "C" && !(isMesoscaleP p)

/-- `is_glm_product = product == 'GLM-L2-LCFA'`. -/
def isGlmP (p : String) : Bool := p == "GLM-L2-LCFA"

/-- `is_suvi_product = product.startswith('SUVI-L1b-')`. -/
def isSuviP (p : String) : Bool := startsWithB p "SUVI-L1b-"

/-- `is_seis_product = product.startswith('SEIS-L1b-')`. -/
def isSeisP (p : String) : Bool := startsWithB p "SEIS-L1b-"

/-- `is_mag_product = product == 'MAG-L1b-GEOF'`. -/
def isMagP (p : String) : Bool := p == "MAG-L1b-GEOF"

/-- The `is_glm_product or is_suvi_product or is_seis_product or
is_mag_product` combination used for sector/mode/band suppression. -/
def isFixedP (p : String) : Bool := isGlmP p || isSuviP p || isSeisP p || isMagP p

/-- Day-of-year of the query date. -/
def doyQ (r : GoesReq) : Nat := doyOf r.qYear r.qMonth r.qDay

/-- `dt_input` as an instant. -/
def dtInputSecs (r : GoesReq) : Nat := epochSecs r.qYear (doyQ r) r.qHour r.qMin r.qSec

/-- `timestamp_prefix`: `dt_input.strftime('%Y%j%H%M%S')` with seconds,
`'%Y%j%H%M'` without. -/
def tsQueryOf (r : GoesReq) : String :=
  padNum 4 r.qYear ++ padNum 3 (doyQ r) ++ padNum 2 r.qHour ++ padNum 2 r.qMin ++
    (if r.hasSeconds then padNum 2 r.qSec else "")

/-- `obj['Key'].split('/')[-1]`. -/
def fileNameOf (key : String) : String := lastComponent key

/-- The token `f'-M{m}C{b:02d}'`. -/
def bandTok (m b : Nat) : String := "-M" ++ toString m ++ "C" ++ padNum 2 b

/-- The whole-catalog band-specific scan: some file name contains
`-M{m}C{bb}` for `m` in 1..6, `bb` in 01..16. -/
def isBandSpecificCat (cat : List String) : Bool :=
  cat.any fun k =>
    (List.range 6).any fun mi =>
      (List.range 16).any fun bi => containsSub (fileNameOf k) (bandTok (mi + 1) (bi + 1))

/-- `band_str` before the GLM/SUVI/SEIS/MAG overrides: `f'C{int(band):02d}'`
when the catalog is band-specific (a missing band defaults to `'01'`,
i.e. band 1), and `''` otherwise. -/
def bandStrPre (band : Option Nat) (cat : List String) : String :=
  if isBandSpecificCat cat then "C" ++ padNum 2 (band.getD 1) else ""

/-- `band_str` after the overrides of lines 126-139. -/
def bandStrFor (p : String) (band : Option Nat) (cat : List String) : String :=
  if isFixedP p then "" else bandStrPre band cat

/-- The `sectors` list of lines 126-143. -/
def sectorsFor (r : GoesReq) : List String :=
  if isFixedP r.product then [""]
  else if isMesoscaleP r.product then
    match r.sector with
    | some s => if s == "M1" || s == "M2" then [s] else ["M1", "M2"]
    | none => ["M1", "M2"]
  else [""]

/-- `possible_modes`. -/
def modesFor (r : GoesReq) : List String :=
  if isFixedP r.product then [""] else [r.mode, "3", "4", "6"]

/-- The (mode, sector) combinations in the order the nested loops visit
them: modes outer, sectors inner. -/
def pairsFor (r : GoesReq) : List (String × String) :=
  (modesFor r).flatMap fun m => (sectorsFor r).map fun s => (m, s)

/-- `target_pattern` for one (mode, sector) combination. -/
def patternFor (r : GoesReq) (bandStr : String) (tryMode sector : String) : String :=
  "OR_" ++
    (if isMesoscaleP r.product then
       subSlice r.product 0 (r.product.data.length - 1) ++ sector
     else r.product) ++
    (if tryMode ≠ "" then "-M" ++ tryMode else "") ++
    bandStr ++ "_G" ++ r.satNum ++ "_s"

/-- Timestamp extraction from an object key (lines 169-176): the substring
between `_s` and `_e` (with Python's `find` returning `-1`, hence start
index 1, when `_s` is absent), rejected when shorter than 14 characters,
with the trailing tenths digit dropped. -/
def extractTs (key : String) : Option String :=
  let st := match findSub key "_s" 0 with
    | some i => i + 2
    | none => 1
  match findSub key "_e" st with
  | none => none
  | some e =>
    let full := (key.data.drop st).take (e - st)
    if full.length < 14 then none else some (String.mk (full.take (full.length - 1)))

/-- The mutable loop state: `matching_files`, `used_mode`, `used_sector`,
`closest_file`, `closest_time_diff` (in seconds, initial 600). -/
structure ScanState where
  matchingFiles : List String
  usedMode : String
  usedSector : String
  closestFile : Option String
  closestDiff : Nat
deriving DecidableEq

def initState (r : GoesReq) : ScanState :=
  ⟨[], if isFixedP r.product then "" else r.mode, "", none, 600⟩

/-- One iteration of the object loop (lines 162-229).  The returned boolean
is the `break` of the exact-second GLM match. -/
def objStep (r : GoesReq) (tryMode sector pat : String) (st : ScanState) (key : String) :
    ScanState × Bool :=
  if !(startsWithB (fileNameOf key) pat) then (st, false)
  else
    match extractTs key with
    | none => (st, false)
    | some tsStr =>
      if isGlmP r.product then
        if r.hasSeconds then
          if String.mk (tsStr.data.take 13) == tsQueryOf r then
            ({ st with matchingFiles := [key], usedSector := sector }, true)
          else (st, false)
        else
          match parse13 tsStr with
          | none => (st, false)
          | some t =>
            let d := Nat.dist t (dtInputSecs r)
            if d ≤ 20 then
              if st.matchingFiles.isEmpty || d < 20 then
                ({ st with matchingFiles := [key], usedSector := sector }, false)
              else (st, false)
            else (st, false)
      else if isConusP r.product then
        match parse13 tsStr with
        | none => (st, false)
        | some t =>
          let d := Nat.dist t (dtInputSecs r)
          if d ≤ 120 then
            if st.closestFile.isNone || d < st.closestDiff then
              ({ st with closestFile := some key, closestDiff := d,
                         usedMode := tryMode, usedSector := sector }, false)
            else (st, false)
          else (st, false)
      else if isSuviP r.product || isSeisP r.product || isMagP r.product ||
              startsWithB r.product "ABI-" then
        if String.mk (tsStr.data.take 11) == String.mk ((tsQueryOf r).data.take 11) then
          ({ st with matchingFiles := st.matchingFiles ++ [key] }, false)
        else (st, false)
      else
        match parse13 tsStr with
        | none => (st, false)
        | some t =>
          let d := Nat.dist t (dtInputSecs r)
          if d < 600 then
            if st.matchingFiles.isEmpty || d < st.closestDiff then
              ({ st with matchingFiles := [key], closestDiff := d,
                         usedMode := tryMode, usedSector := sector }, false)
            else (st, false)
          else (st, false)

/-- The object loop over the catalog, honouring the GLM `break`. -/
def objLoop (r : GoesReq) (tryMode sector pat : String) :
    List String → ScanState → ScanState
  | [], st => st
  | k :: ks, st =>
    match objStep r tryMode sector pat st k with
    | (st', true) => st'
    | (st', false) => objLoop r tryMode sector pat ks st'

/-- `if matching_files or closest_file: break`. -/
def successful (st : ScanState) : Bool := !st.matchingFiles.isEmpty || st.closestFile.isSome

/-- The scan of a single (mode, sector) combination. -/
def scanPair (r : GoesReq) (bs : String) (cat : List String) (p : String × String)
    (st : ScanState) : ScanState :=
  objLoop r p.1 p.2 (patternFor r bs p.1 p.2) cat st

/-- The nested mode/sector loops with their double `break`. -/
def runPairs (r : GoesReq) (bs : String) (cat : List String) :
    List (String × String) → ScanState → ScanState
  | [], st => st
  | p :: rest, st =>
    let st' := scanPair r bs cat p st
    if successful st' then st' else runPairs r bs cat rest st'

structure MatchOutcome where
  files : List String
  usedMode : String
  usedSector : String
deriving DecidableEq

/-- Final packaging (lines 236-244): CONUS substitutes the single closest
file; an empty selection is a no-match (`None`). -/
def outcomeOf (r : GoesReq) (st : ScanState) : Option MatchOutcome :=
  let files :=
    match isConusP r.product, st.closestFile with
    | true, some cf => [cf]
    | _, _ => st.matchingFiles
  if files.isEmpty then none else some ⟨files, st.usedMode, st.usedSector⟩

/-- The complete matching engine: the selection part of `download_GOES`,
from a catalog of listed object keys to the selected keys and the effective
mode/sector. -/
def matchEngine (r : GoesReq) (band : Option Nat) (cat : List String) : Option MatchOutcome :=
  outcomeOf r (runPairs r (bandStrFor r.product band cat) cat (pairsFor r) (initState r))

/-- The keys selected by a request (empty when no match). -/
def matchFiles (o : Option MatchOutcome) : List String :=
  match o with
  | none => []
  | some o => o.files

/-! ## JPSS pairing resolver (`download_jpss_sdr`)

The listing collaborator is modelled as a function from a prefix string to
the blob names it returns.  The selection output (`matched_files` after the
duplicate removal) is produced by `jpssMatchedFiles`; the download loop is
out of scope. -/

/-- `target_data`. -/
def targetData (band : String) : String :=
  if band == "DNB" then "VIIRS-DNB-SDR" else "VIIRS-" ++ band ++ "-SDR"

/-- `target_data_geo`: the geolocation sub-type list selected by the band. -/
def targetDataGeo (band : String) : List String :=
  if band == "DNB" then ["VIIRS-DNB-GEO"]
  else if startsWithB band "M" then ["VIIRS-MOD-GEO-TC"] else ["VIIRS-IMG-GEO-TC"]

/-- `list_blobs`: the listing filtered of `.sha384` checksums unless
requested. -/
def listBlobs (listing : String → List String) (inc : Bool) (pfx : String) : List String :=
  (listing pfx).filter fun n => inc || !(endsWithB n ".sha384")

/-- Match of the regex `d(\d{8})_t(\d{nT})` at the head of the character
list: `d`, eight digits, `_t`, `nT` digits. -/
def matchDAt (nT : Nat) (cs : List Char) : Option (List Char × List Char) :=
  match cs with
  | 'd' :: rest =>
    let d8 := rest.take 8
    if d8.length = 8 ∧ d8.all digitB then
      match rest.drop 8 with
      | '_' :: 't' :: r3 =>
        let tN := r3.take nT
        if tN.length = nT ∧ tN.all digitB then some (d8, tN) else none
      | _ => none
    else none
  | _ => none

/-- `re.search` for the date/time token: leftmost position at which the
pattern matches. -/
def searchD (nT : Nat) : List Char → Option (List Char × List Char)
  | [] => none
  | l@(_ :: rest) =>
    match matchDAt nT l with
    | some x => some x
    | none => searchD nT rest

/-- The part of `s` strictly after the first occurrence of `sub` and before
its next occurrence (Python `s.split(sub)[1]`); `none` when `sub` is absent
(the `IndexError` swallowed by the `except`). -/
def splitSecond? (s sub : String) : Option (List Char) :=
  match findSub s sub 0 with
  | none => none
  | some i =>
    let rest := s.data.drop (i + sub.data.length)
    some (match findSubAux sub.data rest 0 with
          | none => rest
          | some j => rest.take j)

/-- `s.split(sub)[0]` on a character list: everything before the first
occurrence of `sub` (the whole list when absent). -/
def splitFirst (cs : List Char) (sub : String) : List Char :=
  match findSubAux sub.data cs 0 with
  | none => cs
  | some j => cs.take j

/-- `parse_dates_sdr`: DNB names go through the `d(\d{8})_t(\d{7})` regex;
other bands slice `s.split("SDR/")[1].split(".h5")[0][21:38]` at fixed
offsets.  Every failure path (missing token, short slice, non-numeric
slice, out-of-range field) returns `none`. -/
def parseDatesSdr (band : String) (s : String) : Option Nat :=
  if band == "DNB" then
    match searchD 7 s.data with
    | none => none
    | some (d8, t7) =>
      match natOfDigits? (d8.take 4), natOfDigits? ((d8.drop 4).take 2),
            natOfDigits? ((d8.drop 6).take 2), natOfDigits? (t7.take 2),
            natOfDigits? ((t7.drop 2).take 2), natOfDigits? ((t7.drop 4).take 2) with
      | some y, some mo, some d, some h, some mi, some sec => mkDatetime? y mo d h mi sec
      | _, _, _, _, _, _ => none
  else
    match splitSecond? s "SDR/" with
    | none => none
    | some rest =>
      let core := splitFirst rest ".h5"
      let s2 := (core.drop 21).take 17
      match natOfDigits? ((s2.drop 1).take 4), natOfDigits? ((s2.drop 5).take 2),
            natOfDigits? ((s2.drop 7).take 2), natOfDigits? ((s2.drop 11).take 2),
            natOfDigits? ((s2.drop 13).take 2), natOfDigits? ((s2.drop 15).take 2) with
      | some y, some mo, some d, some h, some mi, some sec => mkDatetime? y mo d h mi sec
      | _, _, _, _, _, _ => none

/-- `parse_dates_geo`: the `d(\d{8})_t(\d{6,7})` regex (only the first six
time digits are used). -/
def parseDatesGeo (s : String) : Option Nat :=
  match searchD 6 s.data with
  | none => none
  | some (d8, t6) =>
    match natOfDigits? (d8.take 4), natOfDigits? ((d8.drop 4).take 2),
          natOfDigits? ((d8.drop 6).take 2), natOfDigits? (t6.take 2),
          natOfDigits? ((t6.drop 2).take 2), natOfDigits? ((t6.drop 4).take 2) with
    | some y, some mo, some d, some h, some mi, some sec => mkDatetime? y mo d h mi sec
    | _, _, _, _, _, _ => none

/-- `start_limiter`: `datetime(int(start[0:4]), int(start[5:7]),
int(start[8:10]), int(start[11:13]), int(start[14:16]), 0)`. -/
def startLimiter? (start : String) : Option Nat :=
  match natOfDigits? (start.data.take 4), natOfDigits? ((start.data.drop 5).take 2),
        natOfDigits? ((start.data.drop 8).take 2), natOfDigits? ((start.data.drop 11).take 2),
        natOfDigits? ((start.data.drop 14).take 2) with
  | some y, some mo, some d, some h, some mi => mkDatetime? y mo d h mi 0
  | _, _, _, _, _ => none

/-- `end_limiter`: built from the *start* argument's year, month and day and
the *end* argument's hour and minute. -/
def endLimiter? (start endS : String) : Option Nat :=
  match natOfDigits? (start.data.take 4), natOfDigits? ((start.data.drop 5).take 2),
        natOfDigits? ((start.data.drop 8).take 2), natOfDigits? ((endS.data.drop 11).take 2),
        natOfDigits? ((endS.data.drop 14).take 2) with
  | some y, some mo, some d, some h, some mi => mkDatetime? y mo d h mi 0
  | _, _, _, _, _ => none

/-- The primary-stream records with a parsed date inside
`[start_limiter, end_limiter)` (the `dropna` plus range filter on `dfr`),
in listing order, paired with their instants. -/
def sdrRecords (band : String) (files : List String) (sL eL : Nat) : List (String × Nat) :=
  files.filterMap fun f =>
    match parseDatesSdr band f with
    | some t => if sL ≤ t ∧ t < eL then some (f, t) else none
    | none => none

/-- The analogous in-range geolocation records of one listing. -/
def geoRecordsOf (files : List String) (sL eL : Nat) : List (String × Nat) :=
  files.filterMap fun f =>
    match parseDatesGeo f with
    | some t => if sL ≤ t ∧ t < eL then some (f, t) else none
    | none => none

/-- `f"{prefix_type}/{year}/{month}/{day}/"` with the string slices of the
start argument. -/
def dayPfx (t start : String) : String :=
  t ++ "/" ++ subSlice start 0 4 ++ "/" ++ subSlice start 5 7 ++ "/" ++
    subSlice start 8 10 ++ "/"

/-- The `geo_files` accumulation over `target_data_geo`. -/
def geoRecords (band start : String) (inc : Bool) (listing : String → List String)
    (sL eL : Nat) : List (String × Nat) :=
  (targetDataGeo band).flatMap fun gt =>
    geoRecordsOf (listBlobs listing inc (dayPfx gt start)) sL eL

/-- The SDR/GEO matching loop (lines 135-143): for each in-range primary, in
order, append the primary followed by all geolocation records at exactly the
same parsed instant, dropping primaries with none. -/
def matchedLoop (sdrs geos : List (String × Nat)) : List String :=
  sdrs.foldl
    (fun acc sdr =>
      let mg := (geos.filter fun g => g.2 == sdr.2).map Prod.fst
      if mg.isEmpty then acc else acc ++ (sdr.1 :: mg))
    []

def dedupAux : List String → List String → List String
  | [], _ => []
  | x :: xs, seen => if x ∈ seen then dedupAux xs seen else x :: dedupAux xs (x :: seen)

/-- `list(dict.fromkeys(matched_files))`: duplicates removed, first
occurrences kept in order. -/
def dedupKeys (l : List String) : List String := dedupAux l []

/-- The selection part of `download_jpss_sdr`: from the request strings and
the listing collaborator to the ordered `matched_files` list; `none` models
the `ValueError` a malformed start/end raises while the limiters are
built. -/
def jpssMatchedFiles (band start endS : String) (inc : Bool)
    (listing : String → List String) : Option (List String) :=
  match startLimiter? start, endLimiter? start endS with
  | some sL, some eL =>
    let sdrs := sdrRecords band (listBlobs listing inc (dayPfx (targetData band) start)) sL eL
    let geos := geoRecords band start inc listing sL eL
    some (dedupKeys (matchedLoop sdrs geos))
  | _, _ => none

/-! ## Generic engine lemmas -/

/-- Each object-loop step either leaves the state untouched (without
breaking) or produces a state holding a match. -/
lemma objStep_main (r : GoesReq) (m s pat : String) (st : ScanState) (k : String) :
    objStep r m s pat st k = (st, false) ∨ successful (objStep r m s pat st k).1 = true := by
  unfold objStep
  dsimp only
  repeat' split
  all_goals simp [successful]

lemma objStep_break (r : GoesReq) (m s pat : String) (st : ScanState) (k : String)
    (h : (objStep r m s pat st k).2 = true) :
    successful (objStep r m s pat st k).1 = true := by
  rcases objStep_main r m s pat st k with h' | h'
  · rw [h'] at h; cases h
  · exact h'

lemma objLoop_mono (r : GoesReq) (m s pat : String) (l : List String) (st : ScanState)
    (h : successful st = true) : successful (objLoop r m s pat l st) = true := by
  induction l generalizing st with
  | nil => simpa [objLoop] using h
  | cons k ks ih =>
    rcases hs : objStep r m s pat st k with ⟨st', b⟩
    have hyp := objStep_main r m s pat st k
    rw [hs] at hyp
    rw [objLoop, hs]
    cases b with
    | false =>
      show successful (objLoop r m s pat ks st') = true
      rcases hyp with h' | h'
      · injection h' with h1 h2
        rw [h1]
        exact ih st h
      · exact ih st' h'
    | true =>
      show successful st' = true
      rcases hyp with h' | h'
      · injection h' with h1 h2
        rw [h1]
        exact h
      · exact h'

/-- A scan that ends without any match never moved the state. -/
lemma objLoop_unchanged (r : GoesReq) (m s pat : String) (l : List String) (st : ScanState)
    (h : successful (objLoop r m s pat l st) = false) : objLoop r m s pat l st = st := by
  induction l generalizing st with
  | nil => rw [objLoop]
  | cons k ks ih =>
    rcases hs : objStep r m s pat st k with ⟨st', b⟩
    have hyp := objStep_main r m s pat st k
    rw [hs] at hyp
    rw [objLoop, hs] at h ⊢
    cases b with
    | false =>
      show objLoop r m s pat ks st' = st
      have h2 : successful (objLoop r m s pat ks st') = false := h
      rcases hyp with h' | h'
      · injection h' with h1 h3
        rw [h1] at h2 ⊢
        exact ih st h2
      · rw [objLoop_mono r m s pat ks st' h'] at h2
        cases h2
    | true =>
      have h2 : successful st' = false := h
      rcases hyp with h' | h'
      · simp at h'
      · rw [h'] at h2
        cases h2

/-- The nested mode/sector loops amount to scanning the first combination
whose fresh scan succeeds. -/
lemma runPairs_char (r : GoesReq) (bs : String) (cat : List String)
    (pairs : List (String × String)) :
    runPairs r bs cat pairs (initState r) =
      match pairs.find? (fun p => successful (scanPair r bs cat p (initState r))) with
      | none => initState r
      | some p => scanPair r bs cat p (initState r) := by
  induction pairs with
  | nil => rw [runPairs]; rfl
  | cons p rest ih =>
    rw [runPairs]
    by_cases hp : successful (scanPair r bs cat p (initState r)) = true
    · have hf : List.find? (fun q => successful (scanPair r bs cat q (initState r))) (p :: rest) =
          some p := List.find?_cons_of_pos rest hp
      rw [if_pos hp, hf]
    · rw [Bool.not_eq_true] at hp
      have hf : List.find? (fun q => successful (scanPair r bs cat q (initState r))) (p :: rest) =
          List.find? (fun q => successful (scanPair r bs cat q (initState r))) rest :=
        List.find?_cons_of_neg rest (by simp [hp])
      rw [if_neg (by simp [hp]), hf]
      have hsame : scanPair r bs cat p (initState r) = initState r :=
        objLoop_unchanged r p.1 p.2 (patternFor r bs p.1 p.2) cat (initState r) hp
      rw [hsame]
      exact ih

/-- First-success decomposition of `List.find?`. -/
lemma find?_decomp {α : Type} (p : α → Bool) (l : List α) :
    (l.find? p = none ∧ ∀ x ∈ l, p x = false) ∨
      (∃ pre a post, l = pre ++ a :: post ∧ (∀ x ∈ pre, p x = false) ∧ p a = true ∧
        l.find? p = some a) := by
  induction l with
  | nil => exact Or.inl ⟨rfl, by simp⟩
  | cons x xs ih =>
    by_cases hx : p x = true
    · exact Or.inr ⟨[], x, xs, by simp, by simp, hx, by simp [List.find?, hx]⟩
    · rw [Bool.not_eq_true] at hx
      rcases ih with ⟨h1, h2⟩ | ⟨pre, a, post, he, hpre, ha, hf⟩
      · refine Or.inl ⟨by simp [List.find?, hx, h1], ?_⟩
        intro y hy
        rcases List.mem_cons.mp hy with rfl | hy
        · exact hx
        · exact h2 y hy
      · refine Or.inr ⟨x :: pre, a, post, by simp [he], ?_, ha, by simp [List.find?, hx, hf]⟩
        intro y hy
        rcases List.mem_cons.mp hy with rfl | hy
        · exact hx
        · exact hpre y hy

/-- The object-loop step leaves `matching_files` alone, replaces it by the
current key, or appends the current key; in the latter two cases the key
matched the pattern and had an extractable timestamp. -/
lemma objStep_files_shape (r : GoesReq) (m s pat : String) (st : ScanState) (k : String) :
    (objStep r m s pat st k).1.matchingFiles = st.matchingFiles ∨
      (((objStep r m s pat st k).1.matchingFiles = [k] ∨
        (objStep r m s pat st k).1.matchingFiles = st.matchingFiles ++ [k]) ∧
        startsWithB (fileNameOf k) pat = true ∧ ∃ ts, extractTs k = some ts) := by
  unfold objStep
  dsimp only
  repeat' split
  all_goals simp_all

/-- Every key ever placed in `matching_files` comes from the catalog,
matched the target pattern of its step and had an extractable timestamp. -/
lemma objStep_files_mem (r : GoesReq) (m s pat : String) (st : ScanState) (k k' : String)
    (h : k' ∈ (objStep r m s pat st k).1.matchingFiles) :
    k' ∈ st.matchingFiles ∨
      (k' = k ∧ startsWithB (fileNameOf k') pat = true ∧ ∃ ts, extractTs k' = some ts) := by
  rcases objStep_files_shape r m s pat st k with h1 | ⟨h1 | h1, h2, h3⟩
  · rw [h1] at h
    exact Or.inl h
  · rw [h1] at h
    rcases List.mem_singleton.mp h with rfl
    exact Or.inr ⟨rfl, h2, h3⟩
  · rw [h1] at h
    rcases List.mem_append.mp h with h4 | h4
    · exact Or.inl h4
    · rcases List.mem_singleton.mp h4 with rfl
      exact Or.inr ⟨rfl, h2, h3⟩

lemma objLoop_files_mem (r : GoesReq) (m s pat : String) (l : List String) (st : ScanState)
    (k' : String) (h : k' ∈ (objLoop r m s pat l st).matchingFiles) :
    k' ∈ st.matchingFiles ∨
      (k' ∈ l ∧ startsWithB (fileNameOf k') pat = true ∧ ∃ ts, extractTs k' = some ts) := by
  induction l generalizing st with
  | nil => rw [objLoop] at h; exact Or.inl h
  | cons k ks ih =>
    rcases hs : objStep r m s pat st k with ⟨st', b⟩
    rw [objLoop, hs] at h
    have step : k' ∈ st'.matchingFiles →
        k' ∈ st.matchingFiles ∨
          (k' = k ∧ startsWithB (fileNameOf k') pat = true ∧ ∃ ts, extractTs k' = some ts) := by
      intro hm
      have hh := objStep_files_mem r m s pat st k k' (by rw [hs]; exact hm)
      exact hh
    cases b with
    | false =>
      have h2 : k' ∈ (objLoop r m s pat ks st').matchingFiles := h
      rcases ih st' h2 with h1 | h2
      · rcases step h1 with h3 | h4
        · exact Or.inl h3
        · exact Or.inr ⟨by rw [h4.1]; exact List.mem_cons_self k ks, h4.2.1, h4.2.2⟩
      · exact Or.inr ⟨List.mem_cons_of_mem k h2.1, h2.2⟩
    | true =>
      have h2 : k' ∈ st'.matchingFiles := h
      rcases step h2 with h3 | h4
      · exact Or.inl h3
      · exact Or.inr ⟨by rw [h4.1]; exact List.mem_cons_self k ks, h4.2.1, h4.2.2⟩

/-- Outside the CONUS branch `closest_file` is never written. -/
lemma objStep_closest_nonconus (r : GoesReq) (m s pat : String) (st : ScanState) (k : String)
    (h : isConusP r.product = false) :
    (objStep r m s pat st k).1.closestFile = st.closestFile := by
  unfold objStep
  dsimp only
  repeat' split
  all_goals simp_all

lemma objLoop_closest_nonconus (r : GoesReq) (m s pat : String) (l : List String)
    (st : ScanState) (h : isConusP r.product = false) :
    (objLoop r m s pat l st).closestFile = st.closestFile := by
  induction l generalizing st with
  | nil => rw [objLoop]
  | cons k ks ih =>
    rcases hs : objStep r m s pat st k with ⟨st', b⟩
    rw [objLoop, hs]
    have hcl : st'.closestFile = st.closestFile := by
      have hh := objStep_closest_nonconus r m s pat st k h
      rw [hs] at hh
      exact hh
    cases b with
    | false =>
      show (objLoop r m s pat ks st').closestFile = st.closestFile
      rw [ih st', hcl]
    | true =>
      exact hcl

/-! ## Candidate-list views of the per-branch scans -/

/-- Absolute time delta of a key's parsed timestamp from the query. -/
def candDelta (r : GoesReq) (key : String) : Option Nat :=
  ((extractTs key).bind parse13).map fun t => Nat.dist t (dtInputSecs r)

/-- A CONUS in-window candidate: pattern match, parsed timestamp, delta of
at most two minutes. -/
def conusCand1 (r : GoesReq) (pat k : String) : Option (String × Nat) :=
  if startsWithB (fileNameOf k) pat then
    match candDelta r k with
    | some d => if d ≤ 120 then some (k, d) else none
    | none => none
  else none

/-- The CONUS in-window candidates of one (mode, sector) combination, with
their deltas, in catalog order. -/
def conusCands (r : GoesReq) (bs : String) (cat : List String) (p : String × String) :
    List (String × Nat) :=
  cat.filterMap (conusCand1 r (patternFor r bs p.1 p.2))

/-- A strict-window (`< 10` minutes) candidate of the residual
closest-match branch. -/
def windowCand1 (r : GoesReq) (pat k : String) : Option (String × Nat) :=
  if startsWithB (fileNameOf k) pat then
    match candDelta r k with
    | some d => if d < 600 then some (k, d) else none
    | none => none
  else none

/-- The strict-window candidates of one (mode, sector) combination. -/
def windowCands (r : GoesReq) (bs : String) (cat : List String) (p : String × String) :
    List (String × Nat) :=
  cat.filterMap (windowCand1 r (patternFor r bs p.1 p.2))

/-- Keep the incumbent unless the new candidate is strictly closer. -/
def keepCloser (acc : Option (String × Nat)) (kd : String × Nat) : Option (String × Nat) :=
  match acc with
  | none => some kd
  | some kd0 => if kd.2 < kd0.2 then some kd else acc

/-- First candidate, replaced whenever a strictly closer one appears:
the minimal-delta candidate with first-encountered tie-breaking. -/
def closestCand (l : List (String × Nat)) : Option (String × Nat) := l.foldl keepCloser none

lemma foldl_keepCloser_some (l : List (String × Nat)) (kd0 : String × Nat) :
    ∃ kd, List.foldl keepCloser (some kd0) l = some kd ∧ (kd = kd0 ∨ kd ∈ l) ∧
      kd.2 ≤ kd0.2 ∧ ∀ x ∈ l, kd.2 ≤ x.2 := by
  induction l generalizing kd0 with
  | nil => exact ⟨kd0, rfl, Or.inl rfl, le_refl _, by simp⟩
  | cons x xs ih =>
    rw [List.foldl_cons]
    by_cases hx : x.2 < kd0.2
    · have hk : keepCloser (some kd0) x = some x := by simp [keepCloser, hx]
      rw [hk]
      rcases ih x with ⟨kd, h1, h2, h3, h4⟩
      refine ⟨kd, h1, ?_, ?_, ?_⟩
      · rcases h2 with h2 | h2
        · exact Or.inr (by rw [h2]; exact List.mem_cons_self x xs)
        · exact Or.inr (List.mem_cons_of_mem x h2)
      · exact le_trans h3 (le_of_lt hx)
      · intro y hy
        rcases List.mem_cons.mp hy with rfl | hy
        · exact h3
        · exact h4 y hy
    · have hk : keepCloser (some kd0) x = some kd0 := by simp [keepCloser, hx]
      rw [hk]
      rcases ih kd0 with ⟨kd, h1, h2, h3, h4⟩
      refine ⟨kd, h1, ?_, h3, ?_⟩
      · rcases h2 with h2 | h2
        · exact Or.inl h2
        · exact Or.inr (List.mem_cons_of_mem x h2)
      · intro y hy
        rcases List.mem_cons.mp hy with rfl | hy
        · exact le_trans h3 (le_of_not_lt hx)
        · exact h4 y hy

lemma closestCand_none_iff (l : List (String × Nat)) : closestCand l = none ↔ l = [] := by
  cases l with
  | nil => simp [closestCand]
  | cons x xs =>
    constructor
    · intro h
      rw [closestCand, List.foldl_cons] at h
      have hk : keepCloser none x = some x := rfl
      rw [hk] at h
      rcases foldl_keepCloser_some xs x with ⟨kd, h1, _, _, _⟩
      rw [h1] at h
      cases h
    · intro h
      cases h

/-- The closest-candidate fold picks a member of minimal delta. -/
lemma closestCand_spec (l : List (String × Nat)) (kd : String × Nat)
    (h : closestCand l = some kd) : kd ∈ l ∧ ∀ x ∈ l, kd.2 ≤ x.2 := by
  cases l with
  | nil => cases h
  | cons x xs =>
    rw [closestCand, List.foldl_cons] at h
    have hk : keepCloser none x = some x := rfl
    rw [hk] at h
    rcases foldl_keepCloser_some xs x with ⟨kd', h1, h2, h3, h4⟩
    rw [h1] at h
    injection h with h5
    subst h5
    constructor
    · rcases h2 with h2 | h2
      · rw [h2]; exact List.mem_cons_self x xs
      · exact List.mem_cons_of_mem x h2
    · intro y hy
      rcases List.mem_cons.mp hy with rfl | hy
      · exact h3
      · exact h4 y hy

/-! ## CONUS branch characterization -/

/-- The loop state during a fresh CONUS scan: nothing yet, or the current
closest key and delta. -/
def conusStateOf (r : GoesReq) (p : String × String) (acc : Option (String × Nat)) :
    ScanState :=
  match acc with
  | none => initState r
  | some kd => ⟨[], p.1, p.2, some kd.1, kd.2⟩

lemma isGlmP_eq_true (p : String) (h : isGlmP p = true) : p = "GLM-L2-LCFA" := by
  simpa [isGlmP] using h

lemma conus_not_glm (p : String) (h : isConusP p = true) : isGlmP p = false := by
  by_contra hg
  rw [Bool.not_eq_false] at hg
  rw [isGlmP_eq_true p hg] at h
  simp [isConusP, isMesoscaleP, endsWithB, isPrefixL] at h

lemma objStep_conus (r : GoesReq) (pat : String) (p : String × String)
    (hc : isConusP r.product = true) (acc : Option (String × Nat)) (k : String) :
    objStep r p.1 p.2 pat (conusStateOf r p acc) k =
      (conusStateOf r p ((conusCand1 r pat k).elim acc (keepCloser acc)), false) := by
  have hg : isGlmP r.product = false := conus_not_glm r.product hc
  unfold objStep conusCand1 candDelta
  dsimp only
  cases hsw : startsWithB (fileNameOf k) pat with
  | false => simp [hsw]
  | true =>
    cases hex : extractTs k with
    | none => simp [hsw, hex, hg, hc]
    | some ts =>
      cases hp : parse13 ts with
      | none => simp [hsw, hex, hp, hg, hc]
      | some t =>
        by_cases hd : Nat.dist t (dtInputSecs r) ≤ 120
        · cases acc with
          | none =>
            simp [hsw, hex, hp, hg, hc, hd, conusStateOf, initState, keepCloser]
          | some kd0 =>
            by_cases hlt : Nat.dist t (dtInputSecs r) < kd0.2
            · simp [hsw, hex, hp, hg, hc, hd, hlt, conusStateOf, keepCloser]
            · simp [hsw, hex, hp, hg, hc, hd, hlt, conusStateOf, keepCloser]
        · cases acc with
          | none => simp [hsw, hex, hp, hg, hc, hd, conusStateOf]
          | some kd0 => simp [hsw, hex, hp, hg, hc, hd, conusStateOf]

lemma objLoop_conus (r : GoesReq) (pat : String) (p : String × String)
    (hc : isConusP r.product = true) (l : List String) (acc : Option (String × Nat)) :
    objLoop r p.1 p.2 pat l (conusStateOf r p acc) =
      conusStateOf r p (List.foldl keepCloser acc (l.filterMap (conusCand1 r pat))) := by
  induction l generalizing acc with
  | nil => rw [objLoop]; simp
  | cons k ks ih =>
    rw [objLoop, objStep_conus r pat p hc acc k]
    cases hk : conusCand1 r pat k with
    | none =>
      show objLoop r p.1 p.2 pat ks (conusStateOf r p acc) = _
      rw [List.filterMap_cons_none hk]
      exact ih acc
    | some kd =>
      show objLoop r p.1 p.2 pat ks (conusStateOf r p (keepCloser acc kd)) = _
      rw [List.filterMap_cons_some hk, List.foldl_cons]
      exact ih (keepCloser acc kd)

/-- A fresh CONUS scan of one combination lands on the closest in-window
candidate of that combination (or stays at the initial state). -/
lemma scanPair_conus (r : GoesReq) (bs : String) (cat : List String) (p : String × String)
    (hc : isConusP r.product = true) :
    scanPair r bs cat p (initState r) =
      conusStateOf r p (closestCand (conusCands r bs cat p)) := by
  have h0 : initState r = conusStateOf r p none := rfl
  rw [scanPair, h0, objLoop_conus r (patternFor r bs p.1 p.2) p hc cat none]
  rfl

/-! ## Residual closest-within-10-minutes branch characterization -/

/-- The loop state during a fresh residual scan. -/
def windowStateOf (r : GoesReq) (p : String × String) (acc : Option (String × Nat)) :
    ScanState :=
  match acc with
  | none => initState r
  | some kd => ⟨[kd.1], p.1, p.2, none, kd.2⟩

lemma objStep_window (r : GoesReq) (pat : String) (p : String × String)
    (hg : isGlmP r.product = false) (hc : isConusP r.product = false)
    (hsv : isSuviP r.product = false) (hse : isSeisP r.product = false)
    (hmg : isMagP r.product = false) (hab : startsWithB r.product "ABI-" = false)
    (acc : Option (String × Nat)) (k : String) :
    objStep r p.1 p.2 pat (windowStateOf r p acc) k =
      (windowStateOf r p ((windowCand1 r pat k).elim acc (keepCloser acc)), false) := by
  unfold objStep windowCand1 candDelta
  dsimp only
  cases hsw : startsWithB (fileNameOf k) pat with
  | false => simp [hsw]
  | true =>
    cases hex : extractTs k with
    | none => simp [hsw, hex, hg, hc, hsv, hse, hmg, hab]
    | some ts =>
      cases hp : parse13 ts with
      | none => simp [hsw, hex, hp, hg, hc, hsv, hse, hmg, hab]
      | some t =>
        by_cases hd : Nat.dist t (dtInputSecs r) < 600
        · cases acc with
          | none =>
            simp [hsw, hex, hp, hg, hc, hsv, hse, hmg, hab, hd, windowStateOf, initState,
              keepCloser]
          | some kd0 =>
            by_cases hlt : Nat.dist t (dtInputSecs r) < kd0.2
            · simp [hsw, hex, hp, hg, hc, hsv, hse, hmg, hab, hd, hlt, windowStateOf, keepCloser]
            · simp [hsw, hex, hp, hg, hc, hsv, hse, hmg, hab, hd, hlt, windowStateOf, keepCloser]
        · cases acc with
          | none => simp [hsw, hex, hp, hg, hc, hsv, hse, hmg, hab, hd, windowStateOf]
          | some kd0 => simp [hsw, hex, hp, hg, hc, hsv, hse, hmg, hab, hd, windowStateOf]

lemma objLoop_window (r : GoesReq) (pat : String) (p : String × String)
    (hg : isGlmP r.product = false) (hc : isConusP r.product = false)
    (hsv : isSuviP r.product = false) (hse : isSeisP r.product = false)
    (hmg : isMagP r.product = false) (hab : startsWithB r.product "ABI-" = false)
    (l : List String) (acc : Option (String × Nat)) :
    objLoop r p.1 p.2 pat l (windowStateOf r p acc) =
      windowStateOf r p (List.foldl keepCloser acc (l.filterMap (windowCand1 r pat))) := by
  induction l generalizing acc with
  | nil => rw [objLoop]; simp
  | cons k ks ih =>
    rw [objLoop, objStep_window r pat p hg hc hsv hse hmg hab acc k]
    cases hk : windowCand1 r pat k with
    | none =>
      show objLoop r p.1 p.2 pat ks (windowStateOf r p acc) = _
      rw [List.filterMap_cons_none hk]
      exact ih acc
    | some kd =>
      show objLoop r p.1 p.2 pat ks (windowStateOf r p (keepCloser acc kd)) = _
      rw [List.filterMap_cons_some hk, List.foldl_cons]
      exact ih (keepCloser acc kd)

/-- A fresh residual scan of one combination lands on the closest
strict-window candidate of that combination. -/
lemma scanPair_window (r : GoesReq) (bs : String) (cat : List String) (p : String × String)
    (hg : isGlmP r.product = false) (hc : isConusP r.product = false)
    (hsv : isSuviP r.product = false) (hse : isSeisP r.product = false)
    (hmg : isMagP r.product = false) (hab : startsWithB r.product "ABI-" = false) :
    scanPair r bs cat p (initState r) =
      windowStateOf r p (closestCand (windowCands r bs cat p)) := by
  have h0 : initState r = windowStateOf r p none := rfl
  rw [scanPair, h0, objLoop_window r (patternFor r bs p.1 p.2) p hg hc hsv hse hmg hab cat none]
  rfl

/-! ## Exact-minute branch characterization -/

/-- The exact-minute record predicate: pattern match, extractable timestamp
whose first eleven characters equal the query's. -/
def exactOk (r : GoesReq) (pat k : String) : Bool :=
  startsWithB (fileNameOf k) pat &&
    match extractTs k with
    | some ts => String.mk (ts.data.take 11) == String.mk ((tsQueryOf r).data.take 11)
    | none => false

lemma objStep_exact (r : GoesReq) (pat : String) (p : String × String)
    (hg : isGlmP r.product = false) (hc : isConusP r.product = false)
    (hfam : (isSuviP r.product || isSeisP r.product || isMagP r.product ||
      startsWithB r.product "ABI-") = true)
    (st : ScanState) (k : String) :
    objStep r p.1 p.2 pat st k =
      ({ st with matchingFiles := st.matchingFiles ++ if exactOk r pat k then [k] else [] },
        false) := by
  unfold objStep exactOk
  dsimp only
  rcases Bool.or_eq_true_iff.mp hfam with hfam' | hab
  · rcases Bool.or_eq_true_iff.mp hfam' with hfam'' | hmg
    · rcases Bool.or_eq_true_iff.mp hfam'' with hsv | hse
      · cases hsw : startsWithB (fileNameOf k) pat with
        | false => simp [hsw]
        | true =>
          cases hex : extractTs k with
          | none => simp [hsw, hex]
          | some ts =>
            by_cases heq : String.mk (ts.data.take 11) = String.mk ((tsQueryOf r).data.take 11)
            · simp [hsw, hex, hg, hc, hsv, heq]
            · simp [hsw, hex, hg, hc, hsv, heq]
      · cases hsw : startsWithB (fileNameOf k) pat with
        | false => simp [hsw]
        | true =>
          cases hex : extractTs k with
          | none => simp [hsw, hex]
          | some ts =>
            by_cases heq : String.mk (ts.data.take 11) = String.mk ((tsQueryOf r).data.take 11)
            · simp [hsw, hex, hg, hc, hse, heq]
            · simp [hsw, hex, hg, hc, hse, heq]
    · cases hsw : startsWithB (fileNameOf k) pat with
      | false => simp [hsw]
      | true =>
        cases hex : extractTs k with
        | none => simp [hsw, hex]
        | some ts =>
          by_cases heq : String.mk (ts.data.take 11) = String.mk ((tsQueryOf r).data.take 11)
          · simp [hsw, hex, hg, hc, hmg, heq]
          · simp [hsw, hex, hg, hc, hmg, heq]
  · cases hsw : startsWithB (fileNameOf k) pat with
    | false => simp [hsw]
    | true =>
      cases hex : extractTs k with
      | none => simp [hsw, hex]
      | some ts =>
        by_cases heq : String.mk (ts.data.take 11) = String.mk ((tsQueryOf r).data.take 11)
        · simp [hsw, hex, hg, hc, hab, heq]
        · simp [hsw, hex, hg, hc, hab, heq]

lemma objLoop_exact (r : GoesReq) (pat : String) (p : String × String)
    (hg : isGlmP r.product = false) (hc : isConusP r.product = false)
    (hfam : (isSuviP r.product || isSeisP r.product || isMagP r.product ||
      startsWithB r.product "ABI-") = true)
    (l : List String) (st : ScanState) :
    objLoop r p.1 p.2 pat l st =
      { st with matchingFiles := st.matchingFiles ++ l.filter (exactOk r pat) } := by
  induction l generalizing st with
  | nil => rw [objLoop]; simp
  | cons k ks ih =>
    rw [objLoop, objStep_exact r pat p hg hc hfam st k]
    show objLoop r p.1 p.2 pat ks _ = _
    rw [ih]
    cases hk : exactOk r pat k with
    | false => simp [List.filter_cons, hk]
    | true => simp [List.filter_cons, hk]

/-- A fresh exact-minute scan of one combination collects exactly the
pattern records at the query minute, in catalog order. -/
lemma scanPair_exact (r : GoesReq) (bs : String) (cat : List String) (p : String × String)
    (hg : isGlmP r.product = false) (hc : isConusP r.product = false)
    (hfam : (isSuviP r.product || isSeisP r.product || isMagP r.product ||
      startsWithB r.product "ABI-") = true) :
    scanPair r bs cat p (initState r) =
      { initState r with
          matchingFiles := cat.filter (exactOk r (patternFor r bs p.1 p.2)) } := by
  rw [scanPair, objLoop_exact r (patternFor r bs p.1 p.2) p hg hc hfam cat (initState r)]
  rfl

/-! ## Lightning minute-precision branch characterization -/

/-- A lightning minute-precision candidate: pattern match and parsed
timestamp (the 20-second window is enforced by the fold). -/
def glmCand1 (r : GoesReq) (pat k : String) : Option (String × Nat) :=
  if startsWithB (fileNameOf k) pat then
    match candDelta r k with
    | some d => some (k, d)
    | none => none
  else none

/-- The faulty lightning accumulator: any candidate within 20 seconds is
taken when nothing is held yet, and any candidate strictly closer than the
20-second bound - not than the incumbent - replaces it. -/
def glmKeep (acc : Option (String × Nat)) (kd : String × Nat) : Option (String × Nat) :=
  if kd.2 ≤ 20 then
    match acc with
    | none => some kd
    | some _ => if kd.2 < 20 then some kd else acc
  else acc

def glmPick (l : List (String × Nat)) : Option (String × Nat) := l.foldl glmKeep none

/-- The loop state during a fresh lightning minute-precision scan. -/
def glmStateOf (r : GoesReq) (p : String × String) (acc : Option (String × Nat)) :
    ScanState :=
  match acc with
  | none => initState r
  | some kd => ⟨[kd.1], "", p.2, none, 600⟩

lemma initState_glm (r : GoesReq) (hg : isGlmP r.product = true) :
    initState r = ⟨[], "", "", none, 600⟩ := by
  unfold initState isFixedP
  rw [hg]
  rfl

lemma objStep_glm_minute (r : GoesReq) (pat : String) (p : String × String)
    (hg : isGlmP r.product = true) (hsec : r.hasSeconds = false)
    (acc : Option (String × Nat)) (k : String) :
    objStep r p.1 p.2 pat (glmStateOf r p acc) k =
      (glmStateOf r p ((glmCand1 r pat k).elim acc (glmKeep acc)), false) := by
  unfold objStep glmCand1 candDelta
  dsimp only
  cases hsw : startsWithB (fileNameOf k) pat with
  | false => simp [hsw]
  | true =>
    cases hex : extractTs k with
    | none => simp [hsw, hex, hg, hsec]
    | some ts =>
      cases hp : parse13 ts with
      | none => simp [hsw, hex, hp, hg, hsec]
      | some t =>
        by_cases hd : Nat.dist t (dtInputSecs r) ≤ 20
        · cases acc with
          | none =>
            simp [hsw, hex, hp, hg, hsec, hd, glmStateOf, initState_glm r hg, glmKeep]
          | some kd0 =>
            by_cases hlt : Nat.dist t (dtInputSecs r) < 20
            · simp [hsw, hex, hp, hg, hsec, hd, hlt, glmStateOf, glmKeep]
            · simp [hsw, hex, hp, hg, hsec, hd, hlt, glmStateOf, glmKeep]
        · cases acc with
          | none => simp [hsw, hex, hp, hg, hsec, hd, glmStateOf, glmKeep]
          | some kd0 => simp [hsw, hex, hp, hg, hsec, hd, glmStateOf, glmKeep]

lemma objLoop_glm_minute (r : GoesReq) (pat : String) (p : String × String)
    (hg : isGlmP r.product = true) (hsec : r.hasSeconds = false)
    (l : List String) (acc : Option (String × Nat)) :
    objLoop r p.1 p.2 pat l (glmStateOf r p acc) =
      glmStateOf r p (List.foldl glmKeep acc (l.filterMap (glmCand1 r pat))) := by
  induction l generalizing acc with
  | nil => rw [objLoop]; simp
  | cons k ks ih =>
    rw [objLoop, objStep_glm_minute r pat p hg hsec acc k]
    cases hk : glmCand1 r pat k with
    | none =>
      show objLoop r p.1 p.2 pat ks (glmStateOf r p acc) = _
      rw [List.filterMap_cons_none hk]
      exact ih acc
    | some kd =>
      show objLoop r p.1 p.2 pat ks (glmStateOf r p (glmKeep acc kd)) = _
      rw [List.filterMap_cons_some hk, List.foldl_cons]
      exact ih (glmKeep acc kd)

/-- The candidate retained by the lightning fold always lies within the
20-second window and comes from the candidate list. -/
lemma foldl_glmKeep_spec (l : List (String × Nat)) (acc : Option (String × Nat))
    (hacc : ∀ kd, acc = some kd → kd.2 ≤ 20)
    (kd : String × Nat) (h : List.foldl glmKeep acc l = some kd) :
    kd.2 ≤ 20 ∧ ((acc = some kd) ∨ kd ∈ l) := by
  induction l generalizing acc with
  | nil =>
    rw [List.foldl_nil] at h
    exact ⟨hacc kd h, Or.inl h⟩
  | cons x xs ih =>
    rw [List.foldl_cons] at h
    have hnext : ∀ kd', glmKeep acc x = some kd' → kd'.2 ≤ 20 := by
      intro kd' h'
      unfold glmKeep at h'
      by_cases hx : x.2 ≤ 20
      · rw [if_pos hx] at h'
        cases hac : acc with
        | none =>
          rw [hac] at h'
          injection h' with h''
          rw [← h'']
          exact hx
        | some kd0 =>
          rw [hac] at h'
          by_cases hx2 : x.2 < 20
          · rw [if_pos hx2] at h'
            injection h' with h''
            rw [← h'']
            exact hx
          · rw [if_neg hx2] at h'
            exact hacc kd' (hac.trans h')
      · rw [if_neg hx] at h'
        exact hacc kd' h'
    rcases ih (glmKeep acc x) hnext h with ⟨h1, h2 | h2⟩
    · refine ⟨h1, ?_⟩
      unfold glmKeep at h2
      by_cases hx : x.2 ≤ 20
      · rw [if_pos hx] at h2
        cases hac : acc with
        | none =>
          rw [hac] at h2
          injection h2 with h''
          exact Or.inr (by rw [← h'']; exact List.mem_cons_self x xs)
        | some kd0 =>
          rw [hac] at h2
          by_cases hx2 : x.2 < 20
          · rw [if_pos hx2] at h2
            injection h2 with h''
            exact Or.inr (by rw [← h'']; exact List.mem_cons_self x xs)
          · rw [if_neg hx2] at h2
            exact Or.inl h2
      · rw [if_neg hx] at h2
        exact Or.inl h2
    · exact ⟨h1, Or.inr (List.mem_cons_of_mem x h2)⟩

/-- A fresh lightning minute-precision scan of one combination. -/
lemma scanPair_glm_minute (r : GoesReq) (bs : String) (cat : List String) (p : String × String)
    (hg : isGlmP r.product = true) (hsec : r.hasSeconds = false) :
    scanPair r bs cat p (initState r) =
      glmStateOf r p (glmPick (cat.filterMap (glmCand1 r (patternFor r bs p.1 p.2)))) := by
  have h0 : initState r = glmStateOf r p none := rfl
  rw [scanPair, h0, objLoop_glm_minute r (patternFor r bs p.1 p.2) p hg hsec cat none]
  rfl

/-! ## Engine-level packaging -/

lemma matchEngine_eq_find (r : GoesReq) (band : Option Nat) (cat : List String) :
    matchEngine r band cat =
      outcomeOf r
        (match (pairsFor r).find?
            (fun p => successful
              (scanPair r (bandStrFor r.product band cat) cat p (initState r))) with
         | none => initState r
         | some p => scanPair r (bandStrFor r.product band cat) cat p (initState r)) := by
  unfold matchEngine
  rw [runPairs_char]

lemma outcomeOf_init (r : GoesReq) : outcomeOf r (initState r) = none := by
  cases h : isConusP r.product with
  | false => simp [outcomeOf, initState, h]
  | true => simp [outcomeOf, initState, h]

lemma successful_conusStateOf (r : GoesReq) (p : String × String)
    (acc : Option (String × Nat)) :
    successful (conusStateOf r p acc) = acc.isSome := by
  cases acc with
  | none => simp [conusStateOf, successful, initState]
  | some kd => simp [conusStateOf, successful]

lemma successful_windowStateOf (r : GoesReq) (p : String × String)
    (acc : Option (String × Nat)) :
    successful (windowStateOf r p acc) = acc.isSome := by
  cases acc with
  | none => simp [windowStateOf, successful, initState]
  | some kd => simp [windowStateOf, successful]

lemma successful_glmStateOf (r : GoesReq) (p : String × String)
    (acc : Option (String × Nat)) :
    successful (glmStateOf r p acc) = acc.isSome := by
  cases acc with
  | none => simp [glmStateOf, successful, initState]
  | some kd => simp [glmStateOf, successful]

lemma outcomeOf_conusStateOf (r : GoesReq) (p : String × String) (kd : String × Nat)
    (hc : isConusP r.product = true) :
    outcomeOf r (conusStateOf r p (some kd)) = some ⟨[kd.1], p.1, p.2⟩ := by
  simp [outcomeOf, conusStateOf, hc]

lemma outcomeOf_windowStateOf (r : GoesReq) (p : String × String) (kd : String × Nat)
    (hc : isConusP r.product = false) :
    outcomeOf r (windowStateOf r p (some kd)) = some ⟨[kd.1], p.1, p.2⟩ := by
  simp [outcomeOf, windowStateOf, hc]

lemma outcomeOf_glmStateOf (r : GoesReq) (p : String × String) (kd : String × Nat)
    (hc : isConusP r.product = false) :
    outcomeOf r (glmStateOf r p (some kd)) = some ⟨[kd.1], "", p.2⟩ := by
  simp [outcomeOf, glmStateOf, hc]

/-! ## Candidate membership lemmas -/

lemma mem_conusCands (r : GoesReq) (bs : String) (cat : List String) (p : String × String)
    (kd : String × Nat) (h : kd ∈ conusCands r bs cat p) :
    kd.1 ∈ cat ∧ startsWithB (fileNameOf kd.1) (patternFor r bs p.1 p.2) = true ∧
      ∃ t, (extractTs kd.1).bind parse13 = some t ∧ kd.2 = Nat.dist t (dtInputSecs r) ∧
        kd.2 ≤ 120 := by
  rcases List.mem_filterMap.mp h with ⟨a, ha, hc1⟩
  unfold conusCand1 candDelta at hc1
  split at hc1
  · rename_i hsw
    cases hex : ((extractTs a).bind parse13) with
    | none => rw [hex] at hc1; cases hc1
    | some t =>
      rw [hex] at hc1
      simp only [Option.map_some'] at hc1
      split at hc1
      · rename_i hd
        injection hc1 with h1
        rw [← h1]
        exact ⟨ha, hsw, t, hex, rfl, hd⟩
      · cases hc1
  · cases hc1

lemma mem_windowCands (r : GoesReq) (bs : String) (cat : List String) (p : String × String)
    (kd : String × Nat) (h : kd ∈ windowCands r bs cat p) :
    kd.1 ∈ cat ∧ startsWithB (fileNameOf kd.1) (patternFor r bs p.1 p.2) = true ∧
      ∃ t, (extractTs kd.1).bind parse13 = some t ∧ kd.2 = Nat.dist t (dtInputSecs r) ∧
        kd.2 < 600 := by
  rcases List.mem_filterMap.mp h with ⟨a, ha, hc1⟩
  unfold windowCand1 candDelta at hc1
  split at hc1
  · rename_i hsw
    cases hex : ((extractTs a).bind parse13) with
    | none => rw [hex] at hc1; cases hc1
    | some t =>
      rw [hex] at hc1
      simp only [Option.map_some'] at hc1
      split at hc1
      · rename_i hd
        injection hc1 with h1
        rw [← h1]
        exact ⟨ha, hsw, t, hex, rfl, hd⟩
      · cases hc1
  · cases hc1

lemma mem_glmCands (r : GoesReq) (pat : String) (cat : List String)
    (kd : String × Nat) (h : kd ∈ cat.filterMap (glmCand1 r pat)) :
    kd.1 ∈ cat ∧ startsWithB (fileNameOf kd.1) pat = true ∧
      ∃ t, (extractTs kd.1).bind parse13 = some t ∧ kd.2 = Nat.dist t (dtInputSecs r) := by
  rcases List.mem_filterMap.mp h with ⟨a, ha, hc1⟩
  unfold glmCand1 candDelta at hc1
  split at hc1
  · rename_i hsw
    cases hex : ((extractTs a).bind parse13) with
    | none => rw [hex] at hc1; cases hc1
    | some t =>
      rw [hex] at hc1
      simp only [Option.map_some'] at hc1
      injection hc1 with h1
      rw [← h1]
      exact ⟨ha, hsw, t, hex, rfl⟩
  · cases hc1

/-! ## Claim C1 -/

/-- CONUS request of claim C1's scenario: `ABI-L2-CMIPC`, GOES-16,
default mode 6, query 2025-10-08 12:00. -/
def reqC1 : GoesReq := ⟨"ABI-L2-CMIPC", "16", "6", none, false, 2025, 10, 8, 12, 0, 0⟩

/-- Mode-6 CONUS record at 12:01:30 (delta 90 s). -/
def keyC1a : String :=
  "ABI-L2-CMIPC/2025/281/12/OR_ABI-L2-CMIPC-M6C13_G16_s20252811201300_e20252811203000_c20252811203300.nc"

/-- Mode-3 CONUS record at 12:00:45 (delta 45 s). -/
def keyC1b : String :=
  "ABI-L2-CMIPC/2025/281/12/OR_ABI-L2-CMIPC-M3C13_G16_s20252811200450_e20252811203000_c20252811203300.nc"

/-- Claim C1 counterexample: the CONUS search stops at the first
(mode, sector) combination with an in-window match.  With records under
mode 6 (delta 90 s) and mode 3 (delta 45 s), the engine returns the mode-6
record, although the closest in-window candidate across every combination
the claim says is searched is the mode-3 record at 45 s. -/
theorem claim1_counterexample :
    matchEngine reqC1 (some 13) [keyC1a, keyC1b] = some ⟨[keyC1a], "6", ""⟩ ∧
    closestCand ((pairsFor reqC1).flatMap
        (fun p => conusCands reqC1 (bandStrFor reqC1.product (some 13) [keyC1a, keyC1b])
          [keyC1a, keyC1b] p)) = some (keyC1b, 45) ∧
    conusCands reqC1 (bandStrFor reqC1.product (some 13) [keyC1a, keyC1b])
        [keyC1a, keyC1b] (("6" : String), ("" : String)) = [(keyC1a, 90)] ∧
    keyC1a ≠ keyC1b := by
  decide

/-- Claim C1 (amended): for a CONUS-sector product the engine returns at
most one record, and the search over (mode, sector) combinations stops at
the first combination with an in-window (≤ 2 min) candidate - just like the
other families; the returned record is the one with minimal absolute time
delta among that first combination's in-window candidates (first-encountered
on ties), not across the combinations that would have been searched later. -/
theorem claim1_amended_conus (r : GoesReq) (band : Option Nat) (cat : List String)
    (h : isConusP r.product = true) :
    (∀ o, matchEngine r band cat = some o → ∃ k, o.files = [k]) ∧
    (matchEngine r band cat = none ↔
      ∀ p ∈ pairsFor r, conusCands r (bandStrFor r.product band cat) cat p = []) ∧
    (∀ o, matchEngine r band cat = some o →
      ∃ pre p post, pairsFor r = pre ++ p :: post ∧
        (∀ q ∈ pre, conusCands r (bandStrFor r.product band cat) cat q = []) ∧
        ∃ k d, closestCand (conusCands r (bandStrFor r.product band cat) cat p) = some (k, d) ∧
          o = ⟨[k], p.1, p.2⟩ ∧ (k, d) ∈ conusCands r (bandStrFor r.product band cat) cat p ∧
          ∀ x ∈ conusCands r (bandStrFor r.product band cat) cat p, d ≤ x.2) := by
  have hchar : ∀ p, scanPair r (bandStrFor r.product band cat) cat p (initState r) =
      conusStateOf r p (closestCand (conusCands r (bandStrFor r.product band cat) cat p)) :=
    fun p => scanPair_conus r (bandStrFor r.product band cat) cat p h
  have hsucc : ∀ p,
      successful (scanPair r (bandStrFor r.product band cat) cat p (initState r)) =
        (closestCand (conusCands r (bandStrFor r.product band cat) cat p)).isSome := by
    intro p
    rw [hchar p, successful_conusStateOf]
  have hempty : ∀ p,
      successful (scanPair r (bandStrFor r.product band cat) cat p (initState r)) = false →
        conusCands r (bandStrFor r.product band cat) cat p = [] := by
    intro p hs
    rw [hsucc p] at hs
    exact (closestCand_none_iff _).mp (Option.not_isSome_iff_eq_none.mp (by simp [hs]))
  rcases find?_decomp
      (fun p => successful (scanPair r (bandStrFor r.product band cat) cat p (initState r)))
      (pairsFor r) with ⟨hf, hall⟩ | ⟨pre, p, post, hsplit, hpre, hp, hf⟩
  · have heng : matchEngine r band cat = none := by
      rw [matchEngine_eq_find, hf]
      exact outcomeOf_init r
    refine ⟨?_, ⟨fun _ => ?_, fun _ => heng⟩, ?_⟩
    · intro o ho
      rw [heng] at ho
      cases ho
    · intro q hq
      exact hempty q (hall q hq)
    · intro o ho
      rw [heng] at ho
      cases ho
  · have hpick : ∃ kd, closestCand (conusCands r (bandStrFor r.product band cat) cat p) =
        some kd := by
      have hx := hp
      rw [hsucc p] at hx
      exact Option.isSome_iff_exists.mp hx
    rcases hpick with ⟨⟨k, d⟩, hkd⟩
    have heng : matchEngine r band cat = some ⟨[k], p.1, p.2⟩ := by
      rw [matchEngine_eq_find, hf]
      show outcomeOf r (scanPair r (bandStrFor r.product band cat) cat p (initState r)) = _
      rw [hchar p, hkd]
      exact outcomeOf_conusStateOf r p (k, d) h
    rcases closestCand_spec _ _ hkd with ⟨hmem, hmin⟩
    refine ⟨?_, ⟨?_, ?_⟩, ?_⟩
    · intro o ho
      have hoo := heng.symm.trans ho
      injection hoo with hoo'
      exact ⟨k, by rw [← hoo']⟩
    · intro hn
      rw [heng] at hn
      cases hn
    · intro hall2
      exfalso
      have hpin : p ∈ pairsFor r := by
        rw [hsplit]
        exact List.mem_append_right _ (List.mem_cons_self _ _)
      have hce := hall2 p hpin
      rw [hce] at hkd
      simp [closestCand] at hkd
    · intro o ho
      have hoo := heng.symm.trans ho
      injection hoo with hoo'
      refine ⟨pre, p, post, hsplit, ?_, k, d, hkd, hoo'.symm, hmem, hmin⟩
      intro q hq
      exact hempty q (hpre q hq)

/-- Concrete instance of the amended C1: with an empty catalog no
combination has an in-window candidate and the CONUS request reports
no-match. -/
theorem claim1_amended_conus_witness : matchEngine reqC1 (some 13) [] = none :=
  (claim1_amended_conus reqC1 (some 13) [] (by decide)).2.1.mpr (by decide)

/-! ## Claim C4 -/

/-- Claim C4: for a scan-based product reaching the residual closest-match
rule (not lightning, not CONUS, not a fixed-format or `ABI-` exact-minute
product), a record is selected only when its absolute delta is strictly
below 10 minutes, and the single selected record is the closest such
candidate of the first successful combination, earlier candidates being
replaced exactly when a strictly closer one appears. -/
theorem claim4_window_closest (r : GoesReq) (band : Option Nat) (cat : List String)
    (hg : isGlmP r.product = false) (hc : isConusP r.product = false)
    (hsv : isSuviP r.product = false) (hse : isSeisP r.product = false)
    (hmg : isMagP r.product = false) (hab : startsWithB r.product "ABI-" = false) :
    (matchEngine r band cat = none ↔
      ∀ p ∈ pairsFor r, windowCands r (bandStrFor r.product band cat) cat p = []) ∧
    (∀ o, matchEngine r band cat = some o →
      ∃ pre p post, pairsFor r = pre ++ p :: post ∧
        (∀ q ∈ pre, windowCands r (bandStrFor r.product band cat) cat q = []) ∧
        ∃ k d, closestCand (windowCands r (bandStrFor r.product band cat) cat p) = some (k, d) ∧
          o = ⟨[k], p.1, p.2⟩ ∧ (k, d) ∈ windowCands r (bandStrFor r.product band cat) cat p ∧
          ∀ x ∈ windowCands r (bandStrFor r.product band cat) cat p, d ≤ x.2) := by
  have hchar : ∀ p, scanPair r (bandStrFor r.product band cat) cat p (initState r) =
      windowStateOf r p (closestCand (windowCands r (bandStrFor r.product band cat) cat p)) :=
    fun p => scanPair_window r (bandStrFor r.product band cat) cat p hg hc hsv hse hmg hab
  have hsucc : ∀ p,
      successful (scanPair r (bandStrFor r.product band cat) cat p (initState r)) =
        (closestCand (windowCands r (bandStrFor r.product band cat) cat p)).isSome := by
    intro p
    rw [hchar p, successful_windowStateOf]
  have hempty : ∀ p,
      successful (scanPair r (bandStrFor r.product band cat) cat p (initState r)) = false →
        windowCands r (bandStrFor r.product band cat) cat p = [] := by
    intro p hs
    rw [hsucc p] at hs
    exact (closestCand_none_iff _).mp (Option.not_isSome_iff_eq_none.mp (by simp [hs]))
  rcases find?_decomp
      (fun p => successful (scanPair r (bandStrFor r.product band cat) cat p (initState r)))
      (pairsFor r) with ⟨hf, hall⟩ | ⟨pre, p, post, hsplit, hpre, hp, hf⟩
  · have heng : matchEngine r band cat = none := by
      rw [matchEngine_eq_find, hf]
      exact outcomeOf_init r
    refine ⟨⟨fun _ => ?_, fun _ => heng⟩, ?_⟩
    · intro q hq
      exact hempty q (hall q hq)
    · intro o ho
      rw [heng] at ho
      cases ho
  · have hpick : ∃ kd, closestCand (windowCands r (bandStrFor r.product band cat) cat p) =
        some kd := by
      have hx := hp
      rw [hsucc p] at hx
      exact Option.isSome_iff_exists.mp hx
    rcases hpick with ⟨⟨k, d⟩, hkd⟩
    have heng : matchEngine r band cat = some ⟨[k], p.1, p.2⟩ := by
      rw [matchEngine_eq_find, hf]
      show outcomeOf r (scanPair r (bandStrFor r.product band cat) cat p (initState r)) = _
      rw [hchar p, hkd]
      exact outcomeOf_windowStateOf r p (k, d) hc
    rcases closestCand_spec _ _ hkd with ⟨hmem, hmin⟩
    refine ⟨⟨?_, ?_⟩, ?_⟩
    · intro hn
      rw [heng] at hn
      cases hn
    · intro hall2
      exfalso
      have hpin : p ∈ pairsFor r := by
        rw [hsplit]
        exact List.mem_append_right _ (List.mem_cons_self _ _)
      have hce := hall2 p hpin
      rw [hce] at hkd
      simp [closestCand] at hkd
    · intro o ho
      have hoo := heng.symm.trans ho
      injection hoo with hoo'
      refine ⟨pre, p, post, hsplit, ?_, k, d, hkd, hoo'.symm, hmem, hmin⟩
      intro q hq
      exact hempty q (hpre q hq)

/-- Residual-class request used as concrete instance: a non-`ABI-`
mesoscale product with default scan parameters. -/
def reqC4 : GoesReq := ⟨"XYZ-L2-FOOM", "16", "6", none, false, 2025, 10, 8, 12, 0, 0⟩

/-- Mode-3 sector-M2 record at 12:04:30 (delta 270 s < 10 min). -/
def keyC4 : String :=
  "XYZ-L2-FOOM/2025/281/12/OR_XYZ-L2-FOOM2-M3_G16_s20252811204300_e20252811204400_c20252811204500.nc"

/-- Concrete instance of C4: an empty catalog has no strict-window
candidate under any combination, so the request reports no-match. -/
theorem claim4_witness : matchEngine reqC4 none [] = none :=
  (claim4_window_closest reqC4 none [] (by decide) (by decide) (by decide) (by decide)
    (by decide) (by decide)).1.mpr (by decide)

/-! ## Claim C5 -/

/-- Claim C5: for a non-fixed-format, non-lightning, non-CONUS request with
requested mode `m`, the modes are tried in the order `[m, 3, 4, 6]` (outer
loop), a sector-less mesoscale request tries sectors `M1` then `M2` (inner
loop), the engine stops at the first (mode, sector) combination whose scan
finds any match, and the result consists solely of catalog records matching
that combination's pattern. -/
theorem claim5_search_order (r : GoesReq) (band : Option Nat) (cat : List String)
    (hfx : isFixedP r.product = false) :
    modesFor r = [r.mode, "3", "4", "6"] ∧
    (isMesoscaleP r.product = true → r.sector = none → sectorsFor r = ["M1", "M2"]) ∧
    (isMesoscaleP r.product = false → sectorsFor r = [""]) ∧
    (isConusP r.product = false →
      (matchEngine r band cat = none ↔
        ∀ p ∈ pairsFor r,
          successful (scanPair r (bandStrFor r.product band cat) cat p (initState r)) =
            false) ∧
      (∀ o, matchEngine r band cat = some o →
        ∃ pre p post, pairsFor r = pre ++ p :: post ∧
          (∀ q ∈ pre,
            successful (scanPair r (bandStrFor r.product band cat) cat q (initState r)) =
              false) ∧
          successful (scanPair r (bandStrFor r.product band cat) cat p (initState r)) = true ∧
          o = ⟨(scanPair r (bandStrFor r.product band cat) cat p (initState r)).matchingFiles,
               (scanPair r (bandStrFor r.product band cat) cat p (initState r)).usedMode,
               (scanPair r (bandStrFor r.product band cat) cat p (initState r)).usedSector⟩ ∧
          ∀ k ∈ o.files, k ∈ cat ∧
            startsWithB (fileNameOf k) (patternFor r (bandStrFor r.product band cat) p.1 p.2) =
              true)) := by
  refine ⟨by simp [modesFor, hfx], ?_, ?_, ?_⟩
  · intro hm hs
    simp [sectorsFor, hfx, hm, hs]
  · intro hm
    simp [sectorsFor, hfx, hm]
  intro hc
  have hclosest : ∀ p,
      (scanPair r (bandStrFor r.product band cat) cat p (initState r)).closestFile = none :=
    fun p => objLoop_closest_nonconus r p.1 p.2 _ cat (initState r) hc
  rcases find?_decomp
      (fun p => successful (scanPair r (bandStrFor r.product band cat) cat p (initState r)))
      (pairsFor r) with ⟨hf, hall⟩ | ⟨pre, p, post, hsplit, hpre, hp, hf⟩
  · have heng : matchEngine r band cat = none := by
      rw [matchEngine_eq_find, hf]
      exact outcomeOf_init r
    refine ⟨⟨fun _ => hall, fun _ => heng⟩, ?_⟩
    intro o ho
    rw [heng] at ho
    cases ho
  · have hmf : (scanPair r (bandStrFor r.product band cat) cat p (initState r)).matchingFiles ≠
        [] := by
      intro hmf0
      have hx := hp
      unfold successful at hx
      rw [hmf0, hclosest p] at hx
      simp at hx
    have heng : matchEngine r band cat =
        some ⟨(scanPair r (bandStrFor r.product band cat) cat p (initState r)).matchingFiles,
              (scanPair r (bandStrFor r.product band cat) cat p (initState r)).usedMode,
              (scanPair r (bandStrFor r.product band cat) cat p (initState r)).usedSector⟩ := by
      rw [matchEngine_eq_find, hf]
      show outcomeOf r (scanPair r (bandStrFor r.product band cat) cat p (initState r)) = _
      unfold outcomeOf
      rw [hc, hclosest p]
      simp [hmf]
    refine ⟨⟨?_, ?_⟩, ?_⟩
    · intro hn
      rw [heng] at hn
      cases hn
    · intro hall2
      exfalso
      have hpin : p ∈ pairsFor r := by
        rw [hsplit]
        exact List.mem_append_right _ (List.mem_cons_self _ _)
      rw [hall2 p hpin] at hp
      cases hp
    · intro o ho
      have hoo := heng.symm.trans ho
      injection hoo with hoo'
      refine ⟨pre, p, post, hsplit, hpre, hp, hoo'.symm, ?_⟩
      intro k hk
      rw [← hoo'] at hk
      have hmem := objLoop_files_mem r p.1 p.2 (patternFor r (bandStrFor r.product band cat)
        p.1 p.2) cat (initState r) k hk
      rcases hmem with hmem | ⟨h1, h2, _⟩
      · simp [initState] at hmem
      · exact ⟨h1, h2⟩

/-- Concrete instance of C5: a sector-less mesoscale request tries
mode order `[6, 3, 4, 6]` and sectors `M1` then `M2`. -/
theorem claim5_witness :
    modesFor reqC4 = ["6", "3", "4", "6"] ∧ sectorsFor reqC4 = ["M1", "M2"] :=
  ⟨(claim5_search_order reqC4 none [keyC4] (by decide)).1,
   (claim5_search_order reqC4 none [keyC4] (by decide)).2.1 (by decide) rfl⟩

/-! ## Claim C3 -/

/-- The selection claimed for fixed-format exact-minute requests: the
catalog records matching the request's pattern whose timestamp agrees with
the query at minute precision. -/
def exactMinuteMatches (r : GoesReq) (band : Option Nat) (cat : List String) : List String :=
  cat.filter (exactOk r (patternFor r (bandStrFor r.product band cat) "" ""))

lemma isMagP_eq_true (p : String) (h : isMagP p = true) : p = "MAG-L1b-GEOF" := by
  simpa [isMagP] using h

/-- Fixed-format request of the C3 counterexample: a SUVI-family product id
that happens to end in `C`. -/
def reqC3 : GoesReq := ⟨"SUVI-L1b-XC", "16", "6", none, false, 2025, 10, 8, 12, 0, 0⟩

/-- A record of that product at 12:01:30 - a different minute than the
query. -/
def keyC3 : String :=
  "SUVI-L1b-XC/2025/281/12/OR_SUVI-L1b-XC_G16_s20252811201300_e20252811201400_c20252811201500.nc"

/-- Claim C3 counterexample: a SUVI-family product whose id ends in `C` is
routed to the CONUS closest-match rule (the `elif` at line 197 fires before
the fixed-format arm at line 210), so the engine returns a record at a
different minute while the claim's exact-minute selection is empty. -/
theorem claim3_counterexample :
    isSuviP reqC3.product = true ∧
    matchFiles (matchEngine reqC3 none [keyC3]) = [keyC3] ∧
    exactMinuteMatches reqC3 none [keyC3] = [] := by
  decide

/-- Claim C3 (amended): for every fixed-format family request (SUVI, SEIS
or MAG) whose product id does not end in `C` (such an id is instead routed
to the CONUS rule), the result is exactly the list of catalog records that
match the product's pattern and whose minute-truncated timestamp equals the
minute-truncated query - every such record and no other. -/
theorem claim3_amended_exact_minute (r : GoesReq) (band : Option Nat) (cat : List String)
    (hf : isSuviP r.product = true ∨ isSeisP r.product = true ∨ isMagP r.product = true)
    (hc : isConusP r.product = false) :
    matchFiles (matchEngine r band cat) = exactMinuteMatches r band cat := by
  have hg : isGlmP r.product = false := by
    by_contra hg0
    rw [Bool.not_eq_false] at hg0
    rw [isGlmP_eq_true _ hg0] at hf
    rcases hf with h1 | h1 | h1 <;> exact absurd h1 (by decide)
  have hfx : isFixedP r.product = true := by
    unfold isFixedP
    rcases hf with h1 | h1 | h1 <;> simp [h1]
  have hfam : (isSuviP r.product || isSeisP r.product || isMagP r.product ||
      startsWithB r.product "ABI-") = true := by
    rcases hf with h1 | h1 | h1 <;> simp [h1]
  have hpairs : pairsFor r = [(("" : String), ("" : String))] := by
    simp [pairsFor, modesFor, sectorsFor, hfx]
  have hscan := scanPair_exact r (bandStrFor r.product band cat) cat ("", "") hg hc hfam
  by_cases hemp :
      cat.filter (exactOk r (patternFor r (bandStrFor r.product band cat) "" "")) = []
  · have hpred : successful
        (scanPair r (bandStrFor r.product band cat) cat ("", "") (initState r)) = false := by
      rw [hscan]
      simp [successful, initState, hemp]
    have hfind : List.find?
        (fun p => successful (scanPair r (bandStrFor r.product band cat) cat p (initState r)))
        [(("" : String), ("" : String))] = none := by
      simp [List.find?, hpred]
    rw [matchEngine_eq_find, hpairs, hfind]
    show matchFiles (outcomeOf r (initState r)) = _
    rw [outcomeOf_init]
    simp [matchFiles, exactMinuteMatches, hemp]
  · have hie : (cat.filter
        (exactOk r (patternFor r (bandStrFor r.product band cat) "" ""))).isEmpty = false := by
      cases hie0 : (cat.filter
          (exactOk r (patternFor r (bandStrFor r.product band cat) "" ""))).isEmpty with
      | false => rfl
      | true => exact absurd (List.isEmpty_iff.mp hie0) hemp
    have hpred : successful
        (scanPair r (bandStrFor r.product band cat) cat ("", "") (initState r)) = true := by
      rw [hscan]
      simp [successful, initState, hie]
    have hfind : List.find?
        (fun p => successful (scanPair r (bandStrFor r.product band cat) cat p (initState r)))
        [(("" : String), ("" : String))] = some ("", "") := by
      simp [List.find?, hpred]
    rw [matchEngine_eq_find, hpairs, hfind]
    show matchFiles
        (outcomeOf r (scanPair r (bandStrFor r.product band cat) cat ("", "") (initState r))) = _
    rw [hscan]
    unfold outcomeOf
    rw [hc]
    simp [matchFiles, exactMinuteMatches, initState, hie]

/-- Exact-minute SUVI request for the C3 instance. -/
def reqC3w : GoesReq := ⟨"SUVI-L1b-Fe093", "16", "6", none, false, 2025, 10, 8, 12, 0, 0⟩

def keyC3w1 : String :=
  "SUVI-L1b-Fe093/2025/281/12/OR_SUVI-L1b-Fe093_G16_s20252811200300_e20252811200400_c20252811200500.nc"

def keyC3w2 : String :=
  "SUVI-L1b-Fe093/2025/281/12/OR_SUVI-L1b-Fe093_G16_s20252811200300_e20252811200400_c20252811200500.fits"

def keyC3w3 : String :=
  "SUVI-L1b-Fe093/2025/281/12/OR_SUVI-L1b-Fe093_G16_s20252811201300_e20252811201400_c20252811201500.nc"

/-- Concrete instance of the amended C3 on a SUVI catalog with two records
at the query minute and one outside it. -/
theorem claim3_witness :
    matchFiles (matchEngine reqC3w none [keyC3w1, keyC3w3, keyC3w2]) =
      exactMinuteMatches reqC3w none [keyC3w1, keyC3w3, keyC3w2] :=
  claim3_amended_exact_minute reqC3w none [keyC3w1, keyC3w3, keyC3w2]
    (Or.inl (by decide)) (by decide)

/-! ## Claim C2 -/

/-- Lightning request at minute precision: query 2025-10-08 12:00. -/
def reqC2 : GoesReq := ⟨"GLM-L2-LCFA", "16", "6", none, false, 2025, 10, 8, 12, 0, 0⟩

/-- Lightning record at 12:00:05 (delta 5 s). -/
def keyC2a : String :=
  "GLM-L2-LCFA/2025/281/12/OR_GLM-L2-LCFA_G16_s20252811200050_e20252811200250_c20252811200280.nc"

/-- Lightning record at 12:00:15 (delta 15 s). -/
def keyC2b : String :=
  "GLM-L2-LCFA/2025/281/12/OR_GLM-L2-LCFA_G16_s20252811200150_e20252811200350_c20252811200380.nc"

/-- Claim C2 evaluated on the code: with records at deltas 5 s and then
15 s - both inside the 20-second window - the engine returns the
later-encountered 15-second record, not the minimal-delta one, because the
replacement guard at line 192 compares the new delta against the constant
20-second bound instead of the best delta so far.  This contradicts the
code's own comments ("closest within 20 seconds", lines 180 and 191). -/
theorem claim2_code_eval :
    matchEngine reqC2 none [keyC2a, keyC2b] = some ⟨[keyC2b], "", ""⟩ ∧
    candDelta reqC2 keyC2a = some 5 ∧ candDelta reqC2 keyC2b = some 15 := by
  decide

/-! ## Claim C6 -/

/-- The claim's band-specific test, stated on the whole key: the token
appears anywhere in the key (the source checks only the file name, the part
after the last `/`). -/
def keyBandTokenAnywhere (k : String) : Bool :=
  (List.range 6).any fun mi =>
    (List.range 16).any fun bi => containsSub k (bandTok (mi + 1) (bi + 1))

/-- Claim C6 counterexample: a key whose `-M1C01` token lies in a directory
component but not in the file name.  The claim calls this catalog
band-specific; the code's scan, which looks only at
`obj['Key'].split('/')[-1]`, does not. -/
theorem claim6_counterexample :
    isBandSpecificCat ["A-M1C01/f"] = false ∧
    keyBandTokenAnywhere "A-M1C01/f" = true := by
  decide

/-- Claim C6 (amended): the catalog is band-specific iff some key's file
name (its part after the last `/`) contains a `-M{1..6}C{01..16}` token;
and whenever the catalog is band-specific, a request without a band behaves
exactly as one requesting band 1 (band `01`), so a missing band yields at
worst a no-match, never an error. -/
theorem claim6_amended_band (cat : List String) (r : GoesReq) :
    (isBandSpecificCat cat = true ↔
      ∃ k ∈ cat, ∃ m, 1 ≤ m ∧ m ≤ 6 ∧ ∃ b, 1 ≤ b ∧ b ≤ 16 ∧
        containsSub (fileNameOf k) (bandTok m b) = true) ∧
    (isBandSpecificCat cat = true → matchEngine r none cat = matchEngine r (some 1) cat) := by
  constructor
  · unfold isBandSpecificCat
    simp only [List.any_eq_true, List.mem_range]
    constructor
    · rintro ⟨k, hk, mi, hmi, bi, hbi, htok⟩
      exact ⟨k, hk, mi + 1, by omega, by omega, bi + 1, by omega, by omega, htok⟩
    · rintro ⟨k, hk, m, hm1, hm2, b, hb1, hb2, htok⟩
      refine ⟨k, hk, m - 1, by omega, b - 1, by omega, ?_⟩
      have hm : m - 1 + 1 = m := by omega
      have hb : b - 1 + 1 = b := by omega
      rw [hm, hb]
      exact htok
  · intro _
    rfl

/-- Concrete instance of C6: a band-specific single-key catalog, detected
through the file-name token, on which the band-less and band-1 requests
coincide. -/
theorem claim6_witness :
    isBandSpecificCat [keyC1a] = true ∧
    matchEngine reqC1 none [keyC1a] = matchEngine reqC1 (some 1) [keyC1a] :=
  ⟨(claim6_amended_band [keyC1a] reqC1).1.mpr
    ⟨keyC1a, by decide, 6, by decide, by decide, 13, by decide, by decide, by decide⟩,
   (claim6_amended_band [keyC1a] reqC1).2 (by decide)⟩

/-! ## Claim C9 -/

lemma glm_not_conus (p : String) (h : isGlmP p = true) : isConusP p = false := by
  rw [isGlmP_eq_true p h]
  decide

lemma matchFiles_outcomeOf_nonconus (r : GoesReq) (st : ScanState)
    (hc : isConusP r.product = false) (hcl : st.closestFile = none) :
    matchFiles (outcomeOf r st) = st.matchingFiles := by
  unfold outcomeOf
  rw [hc, hcl]
  cases hmf : st.matchingFiles.isEmpty with
  | true =>
    simp only [if_pos]
    rw [List.isEmpty_iff.mp hmf]
    rfl
  | false =>
    simp [matchFiles, hmf]

lemma mem_sdrRecords (band f : String) (t : Nat) (files : List String) (sL eL : Nat)
    (h : (f, t) ∈ sdrRecords band files sL eL) :
    parseDatesSdr band f = some t ∧ sL ≤ t ∧ t < eL ∧ f ∈ files := by
  rcases List.mem_filterMap.mp h with ⟨a, ha, heq⟩
  cases hp : parseDatesSdr band a with
  | none => rw [hp] at heq; cases heq
  | some t' =>
    rw [hp] at heq
    dsimp only at heq
    split at heq
    · injection heq with h1
      injection h1 with h2 h3
      subst h2
      subst h3
      rename_i hrange
      exact ⟨hp, hrange.1, hrange.2, ha⟩
    · cases heq

lemma mem_geoRecordsOf (f : String) (t : Nat) (files : List String) (sL eL : Nat)
    (h : (f, t) ∈ geoRecordsOf files sL eL) :
    parseDatesGeo f = some t ∧ sL ≤ t ∧ t < eL ∧ f ∈ files := by
  rcases List.mem_filterMap.mp h with ⟨a, ha, heq⟩
  cases hp : parseDatesGeo a with
  | none => rw [hp] at heq; cases heq
  | some t' =>
    rw [hp] at heq
    dsimp only at heq
    split at heq
    · injection heq with h1
      injection h1 with h2 h3
      subst h2
      subst h3
      rename_i hrange
      exact ⟨hp, hrange.1, hrange.2, ha⟩
    · cases heq

/-- SUVI request for the C9 counterexample. -/
def reqC9 : GoesReq := ⟨"SUVI-L1b-Fe093", "16", "6", none, false, 2025, 10, 8, 12, 0, 0⟩

/-- A SUVI record whose seconds field is not numeric (`XY`), yet whose
eleven-character minute prefix equals the query's. -/
def keyC9 : String :=
  "SUVI-L1b-Fe093/2025/281/12/OR_SUVI-L1b-Fe093_G16_s20252811200XY0_e20252811200400_c20252811200500.nc"

/-- Claim C9 counterexample: a record whose timestamp fails to parse
(`'20252811200XY'` is not a valid `%Y%j%H%M%S` string) is nevertheless
selected by the exact-minute rule, which compares only the eleven-character
minute prefix - so parse-failing records are not always excluded from
matching. -/
theorem claim9_counterexample :
    matchFiles (matchEngine reqC9 none [keyC9]) = [keyC9] ∧
    (extractTs keyC9).bind parse13 = none := by
  decide

/-- Claim C9 (amended): timestamp extraction is total (`extractTs` returns
`none` on a missing `_e` marker or a short substring instead of raising)
and every selected record passed extraction; a record whose timestamp fails
the full `%Y%j%H%M%S` parse is excluded from matching by all delta-based
rules (CONUS, lightning at minute precision, and the residual
closest-window rule) - but not necessarily by the exact-prefix rules, which
compare digit prefixes only; in the paired backend, a record whose name
fails date parsing is dropped from the in-range record sets and the request
proceeds. -/
theorem claim9_amended_parse :
    (∀ (r : GoesReq) (band : Option Nat) (cat : List String),
      ∀ k ∈ matchFiles (matchEngine r band cat), ∃ ts, extractTs k = some ts) ∧
    (∀ (r : GoesReq) (band : Option Nat) (cat : List String),
      (isConusP r.product = true ∨ (isGlmP r.product = true ∧ r.hasSeconds = false) ∨
        (isGlmP r.product = false ∧ isConusP r.product = false ∧ isSuviP r.product = false ∧
          isSeisP r.product = false ∧ isMagP r.product = false ∧
          startsWithB r.product "ABI-" = false)) →
      ∀ k ∈ matchFiles (matchEngine r band cat), ∃ t, (extractTs k).bind parse13 = some t) ∧
    (∀ (band f : String) (files : List String) (sL eL : Nat),
      parseDatesSdr band f = none → f ∉ (sdrRecords band files sL eL).map Prod.fst) ∧
    (∀ (f : String) (files : List String) (sL eL : Nat),
      parseDatesGeo f = none → f ∉ (geoRecordsOf files sL eL).map Prod.fst) := by
  have hbindchar : ∀ (r : GoesReq) (band : Option Nat) (cat : List String),
      (isConusP r.product = true ∨ (isGlmP r.product = true ∧ r.hasSeconds = false) ∨
        (isGlmP r.product = false ∧ isConusP r.product = false ∧ isSuviP r.product = false ∧
          isSeisP r.product = false ∧ isMagP r.product = false ∧
          startsWithB r.product "ABI-" = false)) →
      ∀ k ∈ matchFiles (matchEngine r band cat), ∃ t, (extractTs k).bind parse13 = some t := by
    intro r band cat hclass k hk
    rw [matchEngine_eq_find] at hk
    rcases find?_decomp
        (fun p => successful (scanPair r (bandStrFor r.product band cat) cat p (initState r)))
        (pairsFor r) with ⟨hf, _⟩ | ⟨pre, p, post, _, _, hp, hf⟩
    · rw [hf] at hk
      have hk' : k ∈ matchFiles (outcomeOf r (initState r)) := hk
      rw [outcomeOf_init] at hk'
      cases hk'
    · rw [hf] at hk
      have hk' : k ∈ matchFiles
          (outcomeOf r (scanPair r (bandStrFor r.product band cat) cat p (initState r))) := hk
      rcases hclass with hcon | ⟨hglm, hsec⟩ | ⟨hg, hc, hsv, hse, hmg, hab⟩
      · rw [scanPair_conus r (bandStrFor r.product band cat) cat p hcon] at hk'
        cases hcc : closestCand (conusCands r (bandStrFor r.product band cat) cat p) with
        | none =>
          rw [hcc] at hk'
          have hk'' : k ∈ matchFiles (outcomeOf r (initState r)) := hk'
          rw [outcomeOf_init] at hk''
          cases hk''
        | some kd =>
          rw [hcc, outcomeOf_conusStateOf r p kd hcon] at hk'
          have hk'' : k = kd.1 := by simpa [matchFiles] using hk'
          subst hk''
          rcases mem_conusCands r (bandStrFor r.product band cat) cat p kd
              (closestCand_spec _ _ hcc).1 with ⟨_, _, t, hbind, _, _⟩
          exact ⟨t, hbind⟩
      · have hcon : isConusP r.product = false := glm_not_conus r.product hglm
        rw [scanPair_glm_minute r (bandStrFor r.product band cat) cat p hglm hsec] at hk'
        cases hcc : glmPick (cat.filterMap
            (glmCand1 r (patternFor r (bandStrFor r.product band cat) p.1 p.2))) with
        | none =>
          rw [hcc] at hk'
          have hk'' : k ∈ matchFiles (outcomeOf r (initState r)) := hk'
          rw [outcomeOf_init] at hk''
          cases hk''
        | some kd =>
          rw [hcc, outcomeOf_glmStateOf r p kd hcon] at hk'
          have hk'' : k = kd.1 := by simpa [matchFiles] using hk'
          subst hk''
          have hmem := foldl_glmKeep_spec
            (cat.filterMap (glmCand1 r (patternFor r (bandStrFor r.product band cat) p.1 p.2)))
            none (fun kd' h' => by cases h') kd hcc
          rcases hmem.2 with h' | h'
          · cases h'
          · rcases mem_glmCands r (patternFor r (bandStrFor r.product band cat) p.1 p.2) cat kd
                h' with ⟨_, _, t, hbind, _⟩
            exact ⟨t, hbind⟩
      · rw [scanPair_window r (bandStrFor r.product band cat) cat p hg hc hsv hse hmg hab]
          at hk'
        cases hcc : closestCand (windowCands r (bandStrFor r.product band cat) cat p) with
        | none =>
          rw [hcc] at hk'
          have hk'' : k ∈ matchFiles (outcomeOf r (initState r)) := hk'
          rw [outcomeOf_init] at hk''
          cases hk''
        | some kd =>
          rw [hcc, outcomeOf_windowStateOf r p kd hc] at hk'
          have hk'' : k = kd.1 := by simpa [matchFiles] using hk'
          subst hk''
          rcases mem_windowCands r (bandStrFor r.product band cat) cat p kd
              (closestCand_spec _ _ hcc).1 with ⟨_, _, t, hbind, _, _⟩
          exact ⟨t, hbind⟩
  refine ⟨?_, hbindchar, ?_, ?_⟩
  · intro r band cat k hk
    by_cases hcon : isConusP r.product = true
    · rcases hbindchar r band cat (Or.inl hcon) k hk with ⟨t, hbind⟩
      rcases Option.bind_eq_some.mp hbind with ⟨ts, hts, _⟩
      exact ⟨ts, hts⟩
    · rw [Bool.not_eq_true] at hcon
      rw [matchEngine_eq_find] at hk
      rcases find?_decomp
          (fun p => successful (scanPair r (bandStrFor r.product band cat) cat p (initState r)))
          (pairsFor r) with ⟨hf, _⟩ | ⟨pre, p, post, _, _, hp, hf⟩
      · rw [hf] at hk
        have hk' : k ∈ matchFiles (outcomeOf r (initState r)) := hk
        rw [outcomeOf_init] at hk'
        cases hk'
      · rw [hf] at hk
        have hcl : (scanPair r (bandStrFor r.product band cat) cat p
            (initState r)).closestFile = none :=
          objLoop_closest_nonconus r p.1 p.2 _ cat (initState r) hcon
        have hk' : k ∈ matchFiles
            (outcomeOf r (scanPair r (bandStrFor r.product band cat) cat p (initState r))) := hk
        rw [matchFiles_outcomeOf_nonconus r _ hcon hcl] at hk'
        rcases objLoop_files_mem r p.1 p.2
            (patternFor r (bandStrFor r.product band cat) p.1 p.2) cat (initState r) k hk' with
          hmem | ⟨_, _, hex⟩
        · simp [initState] at hmem
        · exact hex
  · intro band f files sL eL hnone hmem
    rcases List.mem_map.mp hmem with ⟨⟨f', t⟩, hft, hfst⟩
    dsimp only at hfst
    subst hfst
    rcases mem_sdrRecords band f' t files sL eL hft with ⟨hsome, _, _, _⟩
    rw [hnone] at hsome
    cases hsome
  · intro f files sL eL hnone hmem
    rcases List.mem_map.mp hmem with ⟨⟨f', t⟩, hft, hfst⟩
    dsimp only at hfst
    subst hfst
    rcases mem_geoRecordsOf f' t files sL eL hft with ⟨hsome, _, _, _⟩
    rw [hnone] at hsome
    cases hsome

/-- Concrete instance of C9: a name without the `SDR/` segment fails date
parsing and is absent from the in-range primary record set. -/
theorem claim9_witness :
    "nope" ∉ (sdrRecords "M3" ["nope"] 0 100).map Prod.fst :=
  claim9_amended_parse.2.2.1 "M3" "nope" ["nope"] 0 100 (by decide)

/-! ## Duplicate-removal lemmas -/

lemma mem_dedupAux (l : List String) : ∀ (seen : List String) (x : String),
    x ∈ dedupAux l seen ↔ x ∈ l ∧ x ∉ seen := by
  induction l with
  | nil => intro seen x; simp [dedupAux]
  | cons y ys ih =>
    intro seen x
    rw [dedupAux]
    by_cases hy : y ∈ seen
    · rw [if_pos hy, ih]
      constructor
      · rintro ⟨hx1, hx2⟩
        exact ⟨List.mem_cons_of_mem y hx1, hx2⟩
      · rintro ⟨hx1, hx2⟩
        rcases List.mem_cons.mp hx1 with rfl | hx1
        · exact absurd hy hx2
        · exact ⟨hx1, hx2⟩
    · rw [if_neg hy]
      constructor
      · intro hx
        rcases List.mem_cons.mp hx with rfl | hx
        · exact ⟨List.mem_cons_self _ _, hy⟩
        · rcases (ih (y :: seen) x).mp hx with ⟨hx1, hx2⟩
          exact ⟨List.mem_cons_of_mem y hx1, fun hc => hx2 (List.mem_cons_of_mem y hc)⟩
      · rintro ⟨hx1, hx2⟩
        rcases List.mem_cons.mp hx1 with rfl | hx1
        · exact List.mem_cons_self _ _
        · by_cases hxy : x = y
          · subst hxy
            exact List.mem_cons_self _ _
          · refine List.mem_cons_of_mem y ((ih (y :: seen) x).mpr ⟨hx1, ?_⟩)
            intro hc
            rcases List.mem_cons.mp hc with hc | hc
            · exact hxy hc
            · exact hx2 hc

lemma nodup_dedupAux (l : List String) : ∀ seen : List String, (dedupAux l seen).Nodup := by
  induction l with
  | nil => intro seen; simp [dedupAux]
  | cons y ys ih =>
    intro seen
    rw [dedupAux]
    by_cases hy : y ∈ seen
    · rw [if_pos hy]
      exact ih seen
    · rw [if_neg hy]
      refine List.nodup_cons.mpr ⟨?_, ih (y :: seen)⟩
      intro hmem
      exact ((mem_dedupAux ys (y :: seen) y).mp hmem).2 (List.mem_cons_self _ _)

lemma sublist_dedupAux (l : List String) : ∀ seen : List String,
    List.Sublist (dedupAux l seen) l := by
  induction l with
  | nil => intro seen; simp [dedupAux]
  | cons y ys ih =>
    intro seen
    rw [dedupAux]
    by_cases hy : y ∈ seen
    · rw [if_pos hy]
      exact (ih seen).cons y
    · rw [if_neg hy]
      exact (ih (y :: seen)).cons₂ y

/-! ## Claim C7 -/

/-- The interleaved pairing list the claim describes: each in-range primary
with at least one equal-instant geolocation record contributes itself
immediately followed by those records; primaries without a counterpart
contribute nothing. -/
def pairBlocks (sdrs geos : List (String × Nat)) : List String :=
  sdrs.flatMap fun sdr =>
    let mg := (geos.filter fun g => g.2 == sdr.2).map Prod.fst
    if mg.isEmpty then [] else sdr.1 :: mg

lemma matchedLoop_foldl (geos sdrs : List (String × Nat)) (acc : List String) :
    List.foldl
      (fun acc sdr =>
        let mg := (geos.filter fun g => g.2 == sdr.2).map Prod.fst
        if mg.isEmpty then acc else acc ++ (sdr.1 :: mg)) acc sdrs =
      acc ++ pairBlocks sdrs geos := by
  induction sdrs generalizing acc with
  | nil => simp [pairBlocks]
  | cons s ss ih =>
    rw [List.foldl_cons]
    dsimp only
    by_cases hmg : ((geos.filter fun g => g.2 == s.2).map Prod.fst).isEmpty = true
    · rw [if_pos hmg, ih]
      unfold pairBlocks
      rw [List.flatMap_cons]
      dsimp only
      rw [if_pos hmg, List.nil_append]
    · rw [if_neg hmg, ih]
      unfold pairBlocks
      rw [List.flatMap_cons]
      dsimp only
      rw [if_neg hmg, List.append_assoc]

lemma matchedLoop_eq_blocks (sdrs geos : List (String × Nat)) :
    matchedLoop sdrs geos = pairBlocks sdrs geos := by
  unfold matchedLoop
  rw [matchedLoop_foldl geos sdrs []]
  rw [List.nil_append]

lemma mem_pairBlocks (sdrs geos : List (String × Nat)) (x : String)
    (h : x ∈ pairBlocks sdrs geos) :
    ∃ sdr ∈ sdrs, ((geos.filter fun g => g.2 == sdr.2).map Prod.fst).isEmpty = false ∧
      (x = sdr.1 ∨ x ∈ (geos.filter fun g => g.2 == sdr.2).map Prod.fst) := by
  rcases List.mem_flatMap.mp h with ⟨sdr, hs, hx⟩
  dsimp only at hx
  by_cases hmg : ((geos.filter fun g => g.2 == sdr.2).map Prod.fst).isEmpty = true
  · rw [if_pos hmg] at hx
    cases hx
  · rw [if_neg hmg] at hx
    rcases List.mem_cons.mp hx with rfl | hx
    · exact ⟨sdr, hs, Bool.not_eq_true _ ▸ (by simpa using hmg), Or.inl rfl⟩
    · exact ⟨sdr, hs, by simpa using hmg, Or.inr hx⟩

/-- Claim C7 (amended): the paired-backend selection is the first-seen
by-key deduplication of the interleaved list in which every in-range
primary with an equal-instant geolocation counterpart is immediately
followed by all its matching geolocation records; the output is duplicate
free, a subsequence of the raw interleaved list with exactly its members,
and an in-range primary with no counterpart (and whose key is not itself a
listed geolocation key) never appears in it. -/
theorem claim7_amended_pairing (band start endS : String) (inc : Bool)
    (listing : String → List String) (sL eL : Nat)
    (h1 : startLimiter? start = some sL) (h2 : endLimiter? start endS = some eL) :
    jpssMatchedFiles band start endS inc listing =
      some (dedupKeys (pairBlocks
        (sdrRecords band (listBlobs listing inc (dayPfx (targetData band) start)) sL eL)
        (geoRecords band start inc listing sL eL))) ∧
    (∀ out, jpssMatchedFiles band start endS inc listing = some out →
      out.Nodup ∧
      List.Sublist out (matchedLoop
        (sdrRecords band (listBlobs listing inc (dayPfx (targetData band) start)) sL eL)
        (geoRecords band start inc listing sL eL)) ∧
      (∀ x, x ∈ out ↔ x ∈ matchedLoop
        (sdrRecords band (listBlobs listing inc (dayPfx (targetData band) start)) sL eL)
        (geoRecords band start inc listing sL eL)) ∧
      (∀ ft ∈ sdrRecords band (listBlobs listing inc (dayPfx (targetData band) start)) sL eL,
        (geoRecords band start inc listing sL eL).filter (fun g => g.2 == ft.2) = [] →
        ft.1 ∉ (geoRecords band start inc listing sL eL).map Prod.fst →
        ft.1 ∉ out)) := by
  have hout : jpssMatchedFiles band start endS inc listing =
      some (dedupKeys (matchedLoop
        (sdrRecords band (listBlobs listing inc (dayPfx (targetData band) start)) sL eL)
        (geoRecords band start inc listing sL eL))) := by
    unfold jpssMatchedFiles
    rw [h1, h2]
  refine ⟨by rw [hout, matchedLoop_eq_blocks], ?_⟩
  intro out ho
  have hoeq : out = dedupKeys (matchedLoop
      (sdrRecords band (listBlobs listing inc (dayPfx (targetData band) start)) sL eL)
      (geoRecords band start inc listing sL eL)) := by
    have hx := hout.symm.trans ho
    injection hx with hx'
    exact hx'.symm
  subst hoeq
  refine ⟨nodup_dedupAux _ [], sublist_dedupAux _ [], ?_, ?_⟩
  · intro x
    unfold dedupKeys
    rw [mem_dedupAux]
    simp
  · rintro ⟨f, t⟩ hft hfilt hnotg hmem
    unfold dedupKeys at hmem
    rw [mem_dedupAux] at hmem
    rw [matchedLoop_eq_blocks] at hmem
    rcases mem_pairBlocks _ _ _ hmem.1 with ⟨⟨f', t'⟩, hs', hne, hx⟩
    rcases hx with hx | hx
    · dsimp only at hx
      subst hx
      have hp1 := (mem_sdrRecords band f t _ sL eL hft).1
      have hp2 := (mem_sdrRecords band f t' _ sL eL hs').1
      rw [hp1] at hp2
      injection hp2 with ht
      subst ht
      dsimp only at hfilt hne
      rw [hfilt] at hne
      simp at hne
    · dsimp only at hx
      rcases List.mem_map.mp hx with ⟨g, hg, hgf⟩
      exact hnotg (List.mem_map.mpr ⟨g, (List.mem_filter.mp hg).1, hgf⟩)

/-- First C7 primary record: `npp` platform, 2024-01-01 12:00:20. -/
def sdrC7a : String :=
  "VIIRS-M3-SDR/2024/01/01/SVM03_npp_d20240101_t1200204_e1201446_b62159_c2024.h5"

/-- Second C7 primary record, distinct key with the same instant. -/
def sdrC7b : String :=
  "VIIRS-M3-SDR/2024/01/01/SVM03_j01_d20240101_t1200204_e1201446_b62159_c2024.h5"

/-- The single geolocation record at the same instant. -/
def geoC7 : String :=
  "VIIRS-MOD-GEO-TC/2024/01/01/GMTCO_npp_d20240101_t1200204_e1201446_b62159_c2024.h5"

/-- C7 listing collaborator. -/
def lstC7 (p : String) : List String :=
  if p == "VIIRS-M3-SDR/2024/01/01/" then [sdrC7a, sdrC7b]
  else if p == "VIIRS-MOD-GEO-TC/2024/01/01/" then [geoC7] else []

/-- Claim C7 counterexample: with two in-range primaries at the same
instant and one matching geolocation record, the deduplicated output is
`[S1, G, S2]` - the second primary is in the output and has an in-range
equal-instant geolocation record, yet at no position is it immediately
followed by that record, contradicting the claim's conjunction of the
immediately-followed layout with by-key deduplication. -/
theorem claim7_counterexample :
    jpssMatchedFiles "M3" "2024-01-01 12:00" "2024-01-01 12:30" false lstC7 =
      some [sdrC7a, geoC7, sdrC7b] ∧
    (sdrC7b, 63839707220) ∈ sdrRecords "M3"
      (listBlobs lstC7 false (dayPfx (targetData "M3") "2024-01-01 12:00"))
      63839707200 63839709000 ∧
    (geoC7, 63839707220) ∈ geoRecords "M3" "2024-01-01 12:00" false lstC7
      63839707200 63839709000 ∧
    ((List.range 3).all fun i =>
      !(([sdrC7a, geoC7, sdrC7b].drop i).take 2 == [sdrC7b, geoC7])) = true := by
  decide

/-- Concrete instance of the amended C7 on the duplicate-instant listing. -/
theorem claim7_witness :
    jpssMatchedFiles "M3" "2024-01-01 12:00" "2024-01-01 12:30" false lstC7 =
      some (dedupKeys (pairBlocks
        (sdrRecords "M3"
          (listBlobs lstC7 false (dayPfx (targetData "M3") "2024-01-01 12:00"))
          63839707200 63839709000)
        (geoRecords "M3" "2024-01-01 12:00" false lstC7 63839707200 63839709000))) :=
  (claim7_amended_pairing "M3" "2024-01-01 12:00" "2024-01-01 12:30" false lstC7
    63839707200 63839709000 (by decide) (by decide)).1

/-! ## Claim C8 -/

/-- C8 listing collaborator: only the moderate-resolution geolocation
prefix holds a (matching) file. -/
def lstC8 (p : String) : List String :=
  if p == "VIIRS-MOD-GEO-TC/2024/01/01/" then [geoC7] else []

/-- Claim C8 counterexample: for band `DNB` the geolocation records come
from the dedicated `VIIRS-DNB-GEO` stream, not from the moderate-resolution
stream used for `M` bands - with a catalog whose only geolocation file sits
under `VIIRS-MOD-GEO-TC`, a DNB request sees no geolocation records while
an `M3` request sees it. -/
theorem claim8_counterexample :
    targetDataGeo "DNB" = ["VIIRS-DNB-GEO"] ∧
    targetDataGeo "M3" = ["VIIRS-MOD-GEO-TC"] ∧
    geoRecords "DNB" "2024-01-01 12:00" false lstC8 63839707200 63839709000 = [] ∧
    geoRecords "M3" "2024-01-01 12:00" false lstC8 63839707200 63839709000 =
      [(geoC7, 63839707220)] := by
  decide

/-- Claim C8 (amended): band `DNB` selects its own `VIIRS-DNB-GEO`
geolocation stream; bands starting with `M` select the moderate-resolution
stream; every other band (the `I` bands) selects the image-resolution
stream; consequently a DNB request reads its geolocation records from the
`VIIRS-DNB-GEO` day prefix. -/
theorem claim8_amended_geo :
    targetDataGeo "DNB" = ["VIIRS-DNB-GEO"] ∧
    (∀ b, startsWithB b "M" = true → targetDataGeo b = ["VIIRS-MOD-GEO-TC"]) ∧
    (∀ b, b ≠ "DNB" → startsWithB b "M" = false → targetDataGeo b = ["VIIRS-IMG-GEO-TC"]) ∧
    (∀ (start : String) (inc : Bool) (listing : String → List String) (sL eL : Nat),
      geoRecords "DNB" start inc listing sL eL =
        geoRecordsOf (listBlobs listing inc (dayPfx "VIIRS-DNB-GEO" start)) sL eL) := by
  refine ⟨rfl, ?_, ?_, ?_⟩
  · intro b hb
    have hbd : (b == "DNB") = false := by
      cases hd : b == "DNB" with
      | false => rfl
      | true =>
        have hbe : b = "DNB" := by simpa using hd
        rw [hbe] at hb
        exact absurd hb (by decide)
    simp [targetDataGeo, hbd, hb]
  · intro b hne hm
    have hbd : (b == "DNB") = false := beq_eq_false_iff_ne.mpr hne
    simp [targetDataGeo, hbd, hm]
  · intro start inc listing sL eL
    simp [geoRecords, targetDataGeo]

/-- Concrete instance of the amended C8 for an `M` band and an `I` band. -/
theorem claim8_witness :
    targetDataGeo "M5" = ["VIIRS-MOD-GEO-TC"] ∧
    targetDataGeo "I1" = ["VIIRS-IMG-GEO-TC"] :=
  ⟨claim8_amended_geo.2.1 "M5" (by decide),
   claim8_amended_geo.2.2.1 "I1" (by decide) (by decide)⟩

/-! ## Claim C10 -/

lemma epochSecs_div_day (y doy h mi : Nat) (hh : h ≤ 23) (hm : mi ≤ 59) :
    epochSecs y doy h mi 0 / 86400 = daysBeforeYear y + (doy - 1) := by
  unfold epochSecs
  have hexpr : (daysBeforeYear y + (doy - 1)) * 86400 + h * 3600 + mi * 60 + 0 =
      86400 * (daysBeforeYear y + (doy - 1)) + (h * 3600 + mi * 60) := by ring
  have hlt : h * 3600 + mi * 60 < 86400 := by omega
  rw [hexpr, Nat.mul_add_div (by norm_num), Nat.div_eq_of_lt hlt]
  omega

/-- Claim C10: the paired-backend end bound is built from the start
argument's calendar date and only the hour/minute slices of the end
argument (its date characters are ignored); both limiters fall on the start
argument's day; and when the end hour:minute instant does not exceed the
start instant, the request selects nothing - even if the end string names a
later date. -/
theorem claim10_end_bound :
    (∀ start e e', subSlice e 11 13 = subSlice e' 11 13 →
      subSlice e 14 16 = subSlice e' 14 16 →
      endLimiter? start e = endLimiter? start e') ∧
    (∀ start e sL eL, startLimiter? start = some sL → endLimiter? start e = some eL →
      eL / 86400 = sL / 86400) ∧
    (∀ (band start e : String) (inc : Bool) (listing : String → List String) (sL eL : Nat),
      startLimiter? start = some sL → endLimiter? start e = some eL → eL ≤ sL →
      jpssMatchedFiles band start e inc listing = some []) := by
  refine ⟨?_, ?_, ?_⟩
  · intro start e e' h11 h14
    have ha : (e.data.drop 11).take 2 = (e'.data.drop 11).take 2 := by
      have hc := congrArg String.data h11
      simpa [subSlice] using hc
    have hb : (e.data.drop 14).take 2 = (e'.data.drop 14).take 2 := by
      have hc := congrArg String.data h14
      simpa [subSlice] using hc
    unfold endLimiter?
    rw [ha, hb]
  · intro start e sL eL h1 h2
    unfold startLimiter? at h1
    unfold endLimiter? at h2
    cases hy : natOfDigits? (start.data.take 4) with
    | none => rw [hy] at h1; cases h1
    | some y =>
      rw [hy] at h1 h2
      cases hmo : natOfDigits? ((start.data.drop 5).take 2) with
      | none => rw [hmo] at h1; cases h1
      | some mo =>
        rw [hmo] at h1 h2
        cases hd : natOfDigits? ((start.data.drop 8).take 2) with
        | none => rw [hd] at h1; cases h1
        | some d =>
          rw [hd] at h1 h2
          cases hsh : natOfDigits? ((start.data.drop 11).take 2) with
          | none => rw [hsh] at h1; cases h1
          | some sh =>
            rw [hsh] at h1
            cases hsm : natOfDigits? ((start.data.drop 14).take 2) with
            | none => rw [hsm] at h1; cases h1
            | some sm =>
              rw [hsm] at h1
              dsimp only at h1
              cases heh : natOfDigits? ((e.data.drop 11).take 2) with
              | none => rw [heh] at h2; cases h2
              | some eh =>
                rw [heh] at h2
                cases hem : natOfDigits? ((e.data.drop 14).take 2) with
                | none => rw [hem] at h2; cases h2
                | some em =>
                  rw [hem] at h2
                  dsimp only at h2
                  unfold mkDatetime? at h1 h2
                  split at h1
                  · split at h2
                    · injection h1 with he1
                      injection h2 with he2
                      rename_i hv1 hv2
                      rw [← he1, ← he2]
                      rw [epochSecs_div_day y (doyOf y mo d) eh em hv2.2.2.2.2.2.2.1
                          hv2.2.2.2.2.2.2.2.1,
                        epochSecs_div_day y (doyOf y mo d) sh sm hv1.2.2.2.2.2.2.1
                          hv1.2.2.2.2.2.2.2.1]
                    · cases h2
                  · cases h1
  · intro band start e inc listing sL eL h1 h2 hle
    unfold jpssMatchedFiles
    rw [h1, h2]
    have hS : sdrRecords band (listBlobs listing inc (dayPfx (targetData band) start))
        sL eL = [] := by
      unfold sdrRecords
      rw [List.filterMap_eq_nil_iff]
      intro f hf
      cases hp : parseDatesSdr band f with
      | none => rfl
      | some t =>
        dsimp only
        rw [if_neg]
        omega
    show some (dedupKeys (matchedLoop
      (sdrRecords band (listBlobs listing inc (dayPfx (targetData band) start)) sL eL)
      (geoRecords band start inc listing sL eL))) = some []
    rw [hS]
    rfl

/-- Concrete instance of C10: an end string naming a later date but an
earlier hour:minute selects nothing. -/
theorem claim10_witness :
    jpssMatchedFiles "M3" "2024-01-01 12:00" "2024-05-09 11:00" false lstC8 = some [] :=
  claim10_end_bound.2.2 "M3" "2024-01-01 12:00" "2024-05-09 11:00" false lstC8
    63839707200 63839703600 (by decide) (by decide) (by decide)

end Vlab
